import Mathlib

/-!
# kamokamo: the Seaport reconciliation job and the order endpoint

A shallow embedding of `syncSeaportOrders.js` (endpoint selection, the chunked
range scanner, the payloads built from chain events, the submit call) and of the
`POST /api/order` handler of `server.js`, followed by the properties proved of them.

Conventions of the embedding

* Block numbers are JavaScript numbers holding integers far below `2^53`; they are
  embedded as `Int`, where `+ 1` and `Math.min` are exact.
* An awaited call of a library (ethers, `fetch`) either resolves with a value or rejects
  with an `Error` object; it is embedded as `Except String α`, the string being the error's
  `message`. A callback handed to `queryInChunks` may reject with any value (`Thrown`).
* Everything outside the process (the RPC endpoints, the backend) is a state `ω` that
  each awaited call may read and change.
* A `while` loop is embedded with a fuel argument that bounds its iterations; the
  result is `none` when the fuel ends before the loop does.
-/

set_option autoImplicit false

namespace Kamokamo

/-! ## JavaScript values -/

/-- The JavaScript values that the payloads and the request bodies of the program hold.
Numbers are the integer-valued ones: `num n` is the Number that the integer literal `n`
denotes. -/
inductive JsVal where
  | undefined
  | null
  | bool (b : Bool)
  | num (n : Int)
  | str (s : String)
  /-- An object literal with one property, such as `{ orderHash: h }`. -/
  | record (key : String) (val : JsVal)
  /-- Any other object or array, kept by its JSON text and by what `toString()` gives. -/
  | object (json : String) (text : String)
  deriving DecidableEq, Repr

/-- The string method `toLowerCase()` on the strings the program applies it to, which are
addresses: ASCII, where it maps `A`-`Z` to `a`-`z` and keeps every other character. -/
def lower (s : String) : String := String.mk (s.data.map Char.toLower)

/-- The integer part of the binary logarithm of `v`, for `v ≤ fuel`. -/
def log2Floor : Nat → Nat → Nat
  | 0, _ => 0
  | fuel + 1, v => if v < 2 then 0 else log2Floor fuel (v / 2) + 1

/-- The Number that the integer literal `v` denotes: the nearest double, halfway cases going
to the even significand. A result of `1025` bits or more stands for `Infinity`. -/
def toDouble (v : Nat) : Nat :=
  if v < 2 ^ 53 then v
  else
    let shift := log2Floor v v - 52
    let q := v / 2 ^ shift
    let r := v % 2 ^ shift
    let m := if 2 ^ shift < 2 * r ∨ (2 * r = 2 ^ shift ∧ q % 2 = 1) then q + 1 else q
    m * 2 ^ shift

/-- The decimal that `Number.prototype.toString` writes for the integer double `x` of
`digits` digits: of the decimals with `k` significant digits that denote `x`, for the least
such `k`, the one nearest to `x`, and of two equally near the one with the even last
digit. -/
def shortestDecimal (x digits : Nat) : Nat → Nat → Nat
  | 0, _ => x
  | fuel + 1, k =>
    let unit := 10 ^ (digits - k)
    let lo := x / unit * unit
    let hi := lo + unit
    if toDouble lo = x ∧ toDouble hi = x then
      if x - lo < hi - x then lo
      else if hi - x < x - lo then hi
      else if (lo / unit) % 2 = 0 then lo else hi
    else if toDouble lo = x then lo
    else if toDouble hi = x then hi
    else shortestDecimal x digits fuel (k + 1)

/-- The exponent form `d.ddde+n` of a positive integer, without trailing zeros. -/
def exponentText (v : Nat) : String :=
  let digits := Nat.toDigits 10 v
  match (digits.reverse.dropWhile (fun c => c == '0')).reverse with
  | [] => ""
  | [d] => String.mk ([d] ++ ['e', '+'] ++ Nat.toDigits 10 (digits.length - 1))
  | d :: rest =>
    String.mk (d :: '.' :: rest ++ ['e', '+'] ++ Nat.toDigits 10 (digits.length - 1))

/-- The method `toString()` of the Number that the integer literal `n` denotes. Below
`2 ^ 53` the Number is `n` and the text its decimal digits; from there on the Number is the
nearest double and the text its shortest decimal, in exponent form from `10 ^ 21` on. -/
def numberText (n : Int) : String :=
  if n.natAbs < 2 ^ 53 then toString n
  else
    let x := toDouble n.natAbs
    let sign := if n < 0 then "-" else ""
    if 1024 ≤ log2Floor x x then sign ++ "Infinity"
    else
      let v := shortestDecimal x (Nat.toDigits 10 x).length (Nat.toDigits 10 x).length 1
      sign ++ (if v < 10 ^ 21 then toString v else exponentText v)

namespace JsVal

/-- The truthiness test of `!v`, `v ? a : b` and `v || w`. -/
def truthy : JsVal → Bool
  | undefined => false
  | null => false
  | bool b => b
  | num n => n != 0
  | str s => s != ""
  | record _ _ => true
  | object _ _ => true

/-- The operator `v || w`. -/
def or (v w : JsVal) : JsVal := if v.truthy then v else w

/-- The call `v.toString()`; `none` stands for the `TypeError` on `null` and `undefined`. -/
def toStringJs : JsVal → Option String
  | undefined => none
  | null => none
  | bool b => some (if b then "true" else "false")
  | num n => some (numberText n)
  | str s => some s
  | record _ _ => some "[object Object]"
  | object _ text => some text

/-- The call `v.toLowerCase()`; `none` stands for the `TypeError` on a value that is not a
string. -/
def toLowerCase : JsVal → Option String
  | str s => some (lower s)
  | _ => none

end JsVal

/-! ## syncSeaportOrders.js : the console -/

/-- The lines the job writes to the console. -/
inductive LogLine where
  | rpcTestStart
  | rpcWorks (rpc : String)
  | rpcFailed (rpc : String) (message : String)
  | noRpc
  | backendRejected (status : Nat) (text : String)
  | backendError (message : String)
  | chunkScan (start end_ : Int)
  | chunkError (message : String)
  | syncStart
  | usedRpc (url : String)
  | blockRange (fromBlock latestBlock : Int)
  | primaryFulfilled (orderHash : JsVal)
  | altFulfilled (orderHash : JsVal)
  | cancelled (orderHash : JsVal)
  | syncDone
  | fulfilledTotal (n : Nat)
  | cancelledTotal (n : Nat)
  | fatal (message : String)
  deriving DecidableEq, Repr

/-! ## syncSeaportOrders.js : what the job talks to -/

/-- The three event categories the driver scans: `OrderFulfilled` decoded with `seaportABI`,
`OrderFulfilled` decoded with `altABI`, and `OrderCancelled` decoded with `seaportABI`. -/
inductive EventKind where
  | primaryFulfilled
  | altFulfilled
  | cancelled
  deriving DecidableEq, Repr

/-- The decoded arguments of an event (`ev.args`). A field the ABI does not name is `none`.
Addresses and hashes are strings, `amount` and the elements of `tokenIds` are `BigNumber`s
decoded from `uint256`. -/
structure Args where
  orderHash : Option String
  offerer : Option String
  fulfiller : Option String
  amount : Option Nat
  tokenIds : Option (List Nat)
  deriving DecidableEq, Repr

/-- A log entry returned by `queryFilter`. -/
structure Event where
  args : Option Args
  blockNumber : Int
  deriving DecidableEq, Repr

/-- The object the job submits, which is also the request body the endpoint reads. A key
that the object literal does not have is `undefined`, and `JSON.stringify` leaves out a key
whose value is `undefined`. -/
structure Payload where
  tokenId : JsVal
  price : JsVal
  sellerAddress : JsVal
  buyerAddress : JsVal
  seaportOrder : JsVal
  orderHash : JsVal
  image : JsVal
  nftContract : JsVal
  marketplaceContract : JsVal
  status : JsVal
  onChainBlock : JsVal
  deriving DecidableEq, Repr

/-- What `fetch` resolves with: the status, whether the JSON body has `success: true`, and
what `res.text()` gives. -/
structure Response where
  status : Nat
  success : Bool
  text : Except String String

/-- The property `res.ok`. -/
def Response.ok (res : Response) : Bool := 200 ≤ res.status && res.status ≤ 299

/-- The awaited calls of the job, acting on the outside world `ω`:
`new JsonRpcProvider(rpc).getBlockNumber()`, `contract.queryFilter(filter, start, end)`
through the selected provider, and `fetch(BACKEND_URL + "/api/order", ...)`. -/
structure Env (ω : Type) where
  getBlockNumber : String → ω → Except String Int × ω
  queryFilter : String → EventKind → Int → Int → ω → Except String (List Event) × ω
  fetch : Payload → ω → Except String Response × ω

/-- The environment variables the job reads, after the `ENV CHECK`. -/
structure Config where
  NFT_CONTRACT_ADDRESS : String
  SEAPORT_CONTRACT_ADDRESS : String
  FROM_BLOCK : Int
  RPC_LIST : List (Option String)

/-- The state of the running job: the module-level variables of `syncSeaportOrders.js`
(`provider`, `totalFulfilled`, `totalCancelled`), the console, the outside world, and a
record kept for the proofs: the payloads handed to `fetch`. -/
structure Job (ω : Type) where
  world : ω
  console : List LogLine
  provider : Option String
  totalFulfilled : Nat
  totalCancelled : Nat
  posts : List Payload

namespace Job

/-- The call `console.log(line)`. -/
def log {ω : Type} (j : Job ω) (line : LogLine) : Job ω :=
  { j with console := j.console ++ [line] }

/-- The job state at start, over a world `w`. -/
def init {ω : Type} (w : ω) : Job ω :=
  { world := w, console := [], provider := none, totalFulfilled := 0, totalCancelled := 0,
    posts := [] }

end Job

/-! ## syncSeaportOrders.js : multi-RPC failover -/

/-- The `for (const rpc of RPC_LIST)` loop of `initProvider`. The first component of the
result lists the endpoints on which the liveness call was attempted, in order. -/
def initProviderLoop {ω : Type} (env : Env ω) : List (Option String) → Job ω →
    List String × Job ω
  | [], j => ([], j)
  | none :: rest, j => initProviderLoop env rest j
  | some rpc :: rest, j =>
    if rpc = "" then initProviderLoop env rest j
    else
      match env.getBlockNumber rpc j.world with
      | (.ok _, w) => ([rpc], { j with world := w, provider := some rpc }.log (.rpcWorks rpc))
      | (.error message, w) =>
        let r := initProviderLoop env rest ({ j with world := w }.log (.rpcFailed rpc message))
        (rpc :: r.1, r.2)

/-- The function `initProvider()`. The middle component is `.error 1` when the process
exits (`process.exit(1)`), and the selected `provider` when the function returns. -/
def initProvider {ω : Type} (env : Env ω) (RPC_LIST : List (Option String)) (j : Job ω) :
    List String × Except Nat String × Job ω :=
  let r := initProviderLoop env RPC_LIST (j.log .rpcTestStart)
  match r.2.provider with
  | none => (r.1, .error 1, r.2.log .noRpc)
  | some url => (r.1, .ok url, r.2)

/-! ## syncSeaportOrders.js : backend post -/

/-- The function `postOrderEvent(payload)`. -/
def postOrderEvent {ω : Type} (env : Env ω) (payload : Payload) (j : Job ω) : Bool × Job ω :=
  let j0 := { j with posts := j.posts ++ [payload] }
  match env.fetch payload j0.world with
  | (.ok res, w) =>
    let j1 := { j0 with world := w }
    if !res.ok then
      match res.text with
      | .ok text => (false, j1.log (.backendRejected res.status text))
      | .error message => (false, j1.log (.backendError message))
    else (true, j1)
  | (.error message, w) => (false, { j0 with world := w }.log (.backendError message))

/-! ## syncSeaportOrders.js : the payloads -/

/-- The expression `a?.toLowerCase() || null` on an address that may be missing. -/
def lowerOrNull : Option String → JsVal
  | none => .null
  | some a => JsVal.or (.str (lower a)) .null

/-- A property of `args` read as a value: `undefined` when missing. -/
def propOf : Option String → JsVal
  | none => .undefined
  | some s => .str s

/-- The expression `ev.args || {}`. -/
def Event.argsOrEmpty (ev : Event) : Args :=
  match ev.args with
  | some args => args
  | none => { orderHash := none, offerer := none, fulfiller := none, amount := none,
              tokenIds := none }

/-- The string `fraction` left-padded with `0` up to `n` characters. -/
def padZeros (n : Nat) (fraction : List Char) : List Char :=
  List.replicate (n - fraction.length) '0' ++ fraction

/-- The first group of `^([0-9]*[1-9]|0)(0*)` on a string of digits: the string without its
trailing zeros, and `0` when every digit is zero. -/
def stripZeros (fraction : List Char) : List Char :=
  let kept := (fraction.reverse.dropWhile (fun c => c == '0')).reverse
  if kept.isEmpty then ['0'] else kept

/-- Modelled from the spec: `ethers.utils.formatEther` belongs to the ethers library and is
not in the repository. The spec has it convert "the raw integer amount into a decimal
display amount using the chain's base-unit scale (18 decimal places)", `1.5` for
`1500000000000000000`. The definition follows `formatFixed(value, 18)` of ethers v5: the
quotient by `10^18`, a dot, and the remainder padded to 18 digits without its trailing
zeros. -/
def formatEther (wei : Nat) : String :=
  String.mk (Nat.toDigits 10 (wei / 10 ^ 18) ++
    '.' :: stripZeros (padZeros 18 (Nat.toDigits 10 (wei % 10 ^ 18))))

/-- The payload of the `PRIMARY ABI — OrderFulfilled` scan. -/
def primaryFulfilledPayload (cfg : Config) (ev : Event) : Payload :=
  let args := ev.argsOrEmpty
  { tokenId := .null
    price := .null
    sellerAddress := lowerOrNull args.offerer
    buyerAddress := lowerOrNull args.fulfiller
    seaportOrder := .record "orderHash" (propOf args.orderHash)
    orderHash := propOf args.orderHash
    image := .null
    nftContract := .str cfg.NFT_CONTRACT_ADDRESS
    marketplaceContract := .str cfg.SEAPORT_CONTRACT_ADDRESS
    status := .str "fulfilled"
    onChainBlock := .num ev.blockNumber }

/-- The payload of the `ALT ABI — OrderFulfilled` scan. `tokenId` is
`args.tokenIds ? args.tokenIds[0]?.toString() : null`: an array is truthy even when empty,
and `?.` on its missing first element gives `undefined`. `price` is
`args.amount ? ethers.utils.formatEther(args.amount) : null`, a `BigNumber` being truthy. -/
def altFulfilledPayload (cfg : Config) (ev : Event) : Payload :=
  let args := ev.argsOrEmpty
  { tokenId :=
      match args.tokenIds with
      | some tokenIds =>
        match tokenIds.head? with
        | some first => .str (toString first)
        | none => .undefined
      | none => .null
    price :=
      match args.amount with
      | some amount => .str (formatEther amount)
      | none => .null
    sellerAddress := lowerOrNull args.offerer
    buyerAddress := lowerOrNull args.fulfiller
    seaportOrder := .record "orderHash" (propOf args.orderHash)
    orderHash := propOf args.orderHash
    image := .null
    nftContract := .str cfg.NFT_CONTRACT_ADDRESS
    marketplaceContract := .str cfg.SEAPORT_CONTRACT_ADDRESS
    status := .str "fulfilled"
    onChainBlock := .num ev.blockNumber }

/-- The payload of the `Cancelled Events` scan. -/
def cancelledPayload (cfg : Config) (ev : Event) : Payload :=
  let args := ev.argsOrEmpty
  { tokenId := .null
    price := .null
    sellerAddress := lowerOrNull args.offerer
    buyerAddress := .undefined
    seaportOrder := .record "orderHash" (propOf args.orderHash)
    orderHash := propOf args.orderHash
    image := .undefined
    nftContract := .str cfg.NFT_CONTRACT_ADDRESS
    marketplaceContract := .str cfg.SEAPORT_CONTRACT_ADDRESS
    status := .str "cancelled"
    onChainBlock := .num ev.blockNumber }

/-- The payload a scan builds for an event of its category. -/
def payloadOf (cfg : Config) : EventKind → Event → Payload
  | .primaryFulfilled => primaryFulfilledPayload cfg
  | .altFulfilled => altFulfilledPayload cfg
  | .cancelled => cancelledPayload cfg

/-! ## syncSeaportOrders.js : the chunked query system -/

/-- The constant `CHUNK`. -/
def CHUNK : Int := 5000

/-- A retrieval callback whose rejections are `Error` objects, as those of `main` are:
called with `(start, end)`, it changes the job state and either resolves or rejects with an
error of the given `message`. -/
abbrev Callback (ω : Type) := Int → Int → Job ω → Except String Unit × Job ω

/-- The function `queryInChunks(callback, from, to)` with the chunk width as an argument, on
a callback whose rejections are `Error` objects. The second component of the state is the job; the first is the list of the `(start, end)`
pairs the callback was invoked with, in order. `start` is the loop variable, `fuel`
bounds the iterations of the `while`. -/
def queryInChunksW {ω : Type} (W : Int) (callback : Callback ω) (to_ : Int) :
    Nat → Int → Job ω → Option (List (Int × Int) × Job ω)
  | 0, start, j => if start ≤ to_ then none else some ([], j)
  | fuel + 1, start, j =>
    if start ≤ to_ then
      let end_ := min (start + W) to_
      let j1 := j.log (.chunkScan start end_)
      let j2 :=
        match callback start end_ j1 with
        | (.ok _, j2) => j2
        | (.error message, j2) => j2.log (.chunkError message)
      match queryInChunksW W callback to_ fuel (end_ + 1) j2 with
      | some (calls, j3) => some ((start, end_) :: calls, j3)
      | none => none
    else some ([], j)

/-- The function `queryInChunks(callback, from, to)`, with `CHUNK` for the width. -/
def queryInChunks {ω : Type} (callback : Callback ω) (from_ to_ : Int) (fuel : Nat)
    (j : Job ω) : Option (List (Int × Int) × Job ω) :=
  queryInChunksW CHUNK callback to_ fuel from_ j

/-- What a callback may reject with: `undefined`, `null`, or any other value, given by what
its property `message` prints as. -/
inductive Thrown where
  | undefined
  | null
  | value (message : String)
  deriving DecidableEq, Repr

/-- A retrieval callback that may reject with any value. -/
abbrev AnyCallback (ω : Type) := Int → Int → Job ω → Except Thrown Unit × Job ω

/-- The function `queryInChunks(callback, from, to)` with the chunk width as an argument, on
a callback that may reject with any value. The `catch` evaluates `e.message`, which throws
a `TypeError` when `e` is `undefined` or `null`; the function then rejects with that error,
the middle component of the result. The first component lists the `(start, end)` pairs the
callback was invoked with. -/
def queryInChunksAny {ω : Type} (W : Int) (callback : AnyCallback ω) (to_ : Int) :
    Nat → Int → Job ω → Option (List (Int × Int) × Except String Unit × Job ω)
  | 0, start, j => if start ≤ to_ then none else some ([], .ok (), j)
  | fuel + 1, start, j =>
    if start ≤ to_ then
      let end_ := min (start + W) to_
      let j1 := j.log (.chunkScan start end_)
      match callback start end_ j1 with
      | (.ok _, j2) =>
        match queryInChunksAny W callback to_ fuel (end_ + 1) j2 with
        | some (calls, outcome, j3) => some ((start, end_) :: calls, outcome, j3)
        | none => none
      | (.error (.value message), j2) =>
        match queryInChunksAny W callback to_ fuel (end_ + 1) (j2.log (.chunkError message)) with
        | some (calls, outcome, j3) => some ((start, end_) :: calls, outcome, j3)
        | none => none
      | (.error .undefined, j2) =>
        some ([(start, end_)],
          .error "TypeError: Cannot read properties of undefined (reading 'message')", j2)
      | (.error .null, j2) =>
        some ([(start, end_)],
          .error "TypeError: Cannot read properties of null (reading 'message')", j2)
    else some ([], .ok (), j)

/-- Iterations that are enough for the loop over `[from, to]`: one per block. -/
def scanFuel (from_ to_ : Int) : Nat := (to_ + 1 - from_).toNat

/-! ## syncSeaportOrders.js : main -/

/-- The body of `if (await postOrderEvent(payload)) { ... }`: the counter of the category
goes up and a line is logged. -/
def counted {ω : Type} (kind : EventKind) (payload : Payload) (j : Job ω) : Job ω :=
  match kind with
  | .primaryFulfilled =>
    { j with totalFulfilled := j.totalFulfilled + 1 }.log (.primaryFulfilled payload.orderHash)
  | .altFulfilled =>
    { j with totalFulfilled := j.totalFulfilled + 1 }.log (.altFulfilled payload.orderHash)
  | .cancelled =>
    { j with totalCancelled := j.totalCancelled + 1 }.log (.cancelled payload.orderHash)

/-- The loop `for (const ev of events)` of a scan. -/
def submitEvents {ω : Type} (env : Env ω) (cfg : Config) (kind : EventKind) :
    List Event → Job ω → Job ω
  | [], j => j
  | ev :: rest, j =>
    let payload := payloadOf cfg kind ev
    match postOrderEvent env payload j with
    | (true, j1) => submitEvents env cfg kind rest (counted kind payload j1)
    | (false, j1) => submitEvents env cfg kind rest j1

/-- The callback `async (start, end) => { ... }` that `main` hands to `queryInChunks` for a
category; `url` is the provider the contracts were made with. It rejects when `queryFilter`
does. -/
def scanCallback {ω : Type} (env : Env ω) (cfg : Config) (url : String) (kind : EventKind) :
    Callback ω :=
  fun start end_ j =>
    match env.queryFilter url kind start end_ j.world with
    | (.ok events, w) => (.ok (), submitEvents env cfg kind events { j with world := w })
    | (.error message, w) => (.error message, { j with world := w })

/-- The function `main()` together with its `.catch`. The first component is the exit code
of the process; the result is `none` when `fuel` does not cover a scan. -/
def main {ω : Type} (env : Env ω) (cfg : Config) (fuel : Nat) (w : ω) :
    Option (Nat × Job ω) :=
  let j := (Job.init w).log .syncStart
  match initProvider env cfg.RPC_LIST j with
  | (_, .error code, j1) => some (code, j1)
  | (_, .ok url, j1) =>
    let j2 := j1.log (.usedRpc url)
    match env.getBlockNumber url j2.world with
    | (.error message, w3) => some (1, { j2 with world := w3 }.log (.fatal message))
    | (.ok latestBlock, w3) =>
      let j3 := { j2 with world := w3 }.log (.blockRange cfg.FROM_BLOCK latestBlock)
      match queryInChunks (scanCallback env cfg url .primaryFulfilled)
          cfg.FROM_BLOCK latestBlock fuel j3 with
      | none => none
      | some (_, j4) =>
        match queryInChunks (scanCallback env cfg url .altFulfilled)
            cfg.FROM_BLOCK latestBlock fuel j4 with
        | none => none
        | some (_, j5) =>
          match queryInChunks (scanCallback env cfg url .cancelled)
              cfg.FROM_BLOCK latestBlock fuel j5 with
          | none => none
          | some (_, j6) =>
            some (0, ((j6.log .syncDone).log (.fulfilledTotal j6.totalFulfilled)).log
              (.cancelledTotal j6.totalCancelled))

/-! ## server.js : POST /api/order -/

/-- A row of the `orders` table: the columns the endpoints write. -/
structure Row where
  id : String
  tokenId : String
  price : JsVal
  nftContract : JsVal
  marketplaceContract : JsVal
  seller : String
  seaportOrder : JsVal
  orderHash : JsVal
  onChain : Bool
  status : String
  image : JsVal
  createdAt : String
  updatedAt : String
  buyerAddress : JsVal
  deriving DecidableEq, Repr

/-- The `orders` table. -/
abbrev Store := List Row

/-- The rows of the table whose `orderHash` is `h`. -/
def rowsOf (h : JsVal) (db : Store) : List Row := db.filter (fun r => r.orderHash = h)

/-- Modelled from the spec: the hosted store behind the supabase client is not in the
repository. The spec has `orderHash` "unique; used as the conflict key for upserts" and `id`
"assigned at first creation"; the write is one "that creates a record if absent or updates
it in place if present, keyed by a stable identifier", and "two submissions with the same
`orderHash` must collapse to one stored row, with later writes overwriting status/onChain
fields but never silently dropping an existing `signedOrderPayload`". So a row found with
the `orderHash` of the written row stays in place with its `id` and `orderHash`, takes the
`status` and `onChain` of the written row, and keeps its `seaportOrder` when it has one.
What the spec leaves open, the other columns of a row found present, is `resolve`, a
function of the row found and the row written. A row not found is added. -/
def upsert (resolve : Row → Row → Row) (row : Row) (db : Store) : Store :=
  if db.any (fun old => old.orderHash = row.orderHash) then
    db.map (fun old =>
      if old.orderHash = row.orderHash then
        { resolve old row with
          id := old.id
          orderHash := old.orderHash
          status := row.status
          onChain := row.onChain
          seaportOrder :=
            if old.seaportOrder = .null then (resolve old row).seaportOrder
            else old.seaportOrder }
      else old)
  else db ++ [row]

/-- What the handler runs in: the environment variables it reads, and for the store behind
its client the part of an update that the spec leaves open (see `upsert`). -/
structure ServerEnv where
  NFT_CONTRACT_ADDRESS : JsVal
  SEAPORT_CONTRACT_ADDRESS : JsVal
  resolve : Row → Row → Row

/-- What the handler answers: the status and the `success` and `error` of the JSON body. -/
structure Reply where
  status : Nat
  success : Bool
  error : Option String
  deriving DecidableEq, Repr

/-- The handler of `POST /api/order` on the request body `body`. `id` is the value drawn
by `nanoid()`, `createdAt` the time stamp, and `dbError` the `error` the store client
reports, `none` when the write is done. -/
def postOrder (env : ServerEnv) (id createdAt : String) (dbError : Option String)
    (body : Payload) (db : Store) : Reply × Store :=
  if !body.tokenId.truthy || (!body.price.truthy && body.price != .num 0)
      || !body.sellerAddress.truthy || !body.seaportOrder.truthy then
    ({ status := 400, success := false, error := some "Missing parameters" }, db)
  else
    match body.tokenId.toStringJs, body.sellerAddress.toLowerCase with
    | some tokenId, some seller =>
      match dbError with
      | some _ => ({ status := 500, success := false, error := some "Server error" }, db)
      | none =>
        ({ status := 200, success := true, error := none },
          upsert env.resolve
            { id := id
              tokenId := tokenId
              price := body.price
              nftContract := env.NFT_CONTRACT_ADDRESS
              marketplaceContract := env.SEAPORT_CONTRACT_ADDRESS
              seller := seller
              seaportOrder := body.seaportOrder
              orderHash := body.orderHash.or .null
              onChain := false
              status := "active"
              image := body.image.or .null
              createdAt := createdAt
              updatedAt := createdAt
              buyerAddress := .null } db)
    | _, _ => ({ status := 500, success := false, error := some "Server error" }, db)

/-! ## The job posting to server.js -/

/-- The server process behind `BACKEND_URL`: its environment and, for the request it serves
as the `n`-th, the value `nanoid()` draws, the time stamp, the `error` the store client
reports (`none` when the write is done) and the network failure that keeps the request from
being answered (`none` when it is answered). `render` gives the JSON text of a reply. -/
structure Server where
  env : ServerEnv
  nanoid : Nat → String
  now : Nat → String
  dbError : Nat → Option String
  netError : Nat → Option String
  render : Reply → String

/-- The world of a job that posts to the server: the chain side, the `orders` table and
the number of requests sent so far. -/
structure Backend (χ : Type) where
  chain : χ
  db : Store
  requests : Nat

/-- The reply as `fetch` resolves with it. -/
def Reply.toResponse (render : Reply → String) (reply : Reply) : Response :=
  { status := reply.status, success := reply.success, text := .ok (render reply) }

/-- The awaited calls of a job whose `BACKEND_URL` is the server of `server.js`: the chain
calls are those of `chain`, and `fetch` hands the payload to the `POST /api/order` handler
as the request body. -/
def backendEnv {χ : Type} (chain : Env χ) (server : Server) : Env (Backend χ) :=
  { getBlockNumber := fun rpc w =>
      ((chain.getBlockNumber rpc w.chain).1,
        { w with chain := (chain.getBlockNumber rpc w.chain).2 })
    queryFilter := fun url kind start end_ w =>
      ((chain.queryFilter url kind start end_ w.chain).1,
        { w with chain := (chain.queryFilter url kind start end_ w.chain).2 })
    fetch := fun payload w =>
      match server.netError w.requests with
      | some message => (.error message, { w with requests := w.requests + 1 })
      | none =>
        let answer := postOrder server.env (server.nanoid w.requests) (server.now w.requests)
          (server.dbError w.requests) payload w.db
        (.ok (answer.1.toResponse server.render),
          { w with db := answer.2, requests := w.requests + 1 }) }

/-! ## Reading a decimal string -/

/-- The value of a decimal digit. -/
def digitOf (c : Char) : Option Nat :=
  if c.isDigit then some (c.toNat - 48) else none

/-- The number a string of decimal digits writes, read from the left onto `acc`. -/
def readDigits : List Char → Nat → Option Nat
  | [], acc => some acc
  | c :: cs, acc =>
    match digitOf c with
    | some d => readDigits cs (10 * acc + d)
    | none => none

/-- The rational a string `whole.fraction` writes: the whole part plus the fraction part
over `10 ^ (number of fraction digits)`. Both parts must be non-empty digit strings. -/
def readDecimal (s : String) : Option ℚ :=
  let whole := s.data.takeWhile (fun c => c != '.')
  match s.data.dropWhile (fun c => c != '.') with
  | '.' :: fraction =>
    if whole.isEmpty || fraction.isEmpty then none
    else
      match readDigits whole 0, readDigits fraction 0 with
      | some a, some b => some ((a : ℚ) + (b : ℚ) / (10 : ℚ) ^ fraction.length)
      | _, _ => none
  | _ => none

/-! ## Devices of the proofs -/

/-- A callback that never rejects and changes nothing. -/
def neverFails {ω : Type} : Callback ω := fun _ _ j => (.ok (), j)

/-- The sub-intervals the loop of `queryInChunksW` goes through, whatever the callback
does: a device of the proofs. -/
def chunkTrace (W to_ : Int) : Nat → Int → List (Int × Int)
  | 0, _ => []
  | fuel + 1, start =>
    if start ≤ to_ then
      (start, min (start + W) to_) :: chunkTrace W to_ fuel (min (start + W) to_ + 1)
    else []

/-- The job after `callback` has been applied to each of the sub-intervals in turn, each
call announced on the console and each rejection logged. -/
def applyAll {ω : Type} (callback : Callback ω) : List (Int × Int) → Job ω → Job ω
  | [], j => j
  | (start, end_) :: rest, j =>
    applyAll callback rest
      (match callback start end_ (j.log (.chunkScan start end_)) with
       | (.ok _, j2) => j2
       | (.error message, j2) => j2.log (.chunkError message))

/-- A callback whose rejections are `Error` objects, as a callback that may reject with any
value. -/
def ofErrors {ω : Type} (callback : Callback ω) : AnyCallback ω :=
  fun start end_ j =>
    match callback start end_ j with
    | (.ok u, j2) => (.ok u, j2)
    | (.error message, j2) => (.error (.value message), j2)

/-- A sample callback that counts its invocations in `totalFulfilled` and rejects with
`thrown` on the sub-interval that starts at block `0`. -/
def countingCallback (thrown : Thrown) : AnyCallback Unit :=
  fun start _ j =>
    if start = 0 then (.error thrown, { j with totalFulfilled := j.totalFulfilled + 1 })
    else (.ok (), { j with totalFulfilled := j.totalFulfilled + 1 })

/-- The awaited calls of `env`, with every call of `queryFilter` written down in the world:
its category and its block range. -/
def recorded {ω : Type} (env : Env ω) : Env (ω × List (EventKind × Int × Int)) :=
  { getBlockNumber := fun rpc w =>
      ((env.getBlockNumber rpc w.1).1, ((env.getBlockNumber rpc w.1).2, w.2))
    queryFilter := fun url kind start end_ w =>
      ((env.queryFilter url kind start end_ w.1).1,
        ((env.queryFilter url kind start end_ w.1).2, w.2 ++ [(kind, start, end_)]))
    fetch := fun payload w => ((env.fetch payload w.1).1, ((env.fetch payload w.1).2, w.2)) }

/-- A sample world for the driver: every endpoint answers block `11999`, no block holds an
event, and the backend accepts what it is sent. -/
def sampleEnv : Env Unit :=
  { getBlockNumber := fun _ w => (.ok 11999, w)
    queryFilter := fun _ _ _ _ w => (.ok [], w)
    fetch := fun _ w => (.ok { status := 200, success := true, text := .ok "" }, w) }

/-- A sample configuration: the scan starts at block `0` and `APECHAIN_RPC` is unset. -/
def sampleConfig : Config :=
  { NFT_CONTRACT_ADDRESS := "0xnft"
    SEAPORT_CONTRACT_ADDRESS := "0xseaport"
    FROM_BLOCK := 0
    RPC_LIST := [none, some "https://rpc.apechain.com/http", some "https://apechain.drpc.org",
      some "https://33139.rpc.thirdweb.com"] }

/-- The entries of a candidate list that `initProvider` does not skip: those that are set
and not the empty string. -/
def attemptable : List (Option String) → List String
  | [] => []
  | none :: rest => attemptable rest
  | some rpc :: rest => if rpc = "" then attemptable rest else rpc :: attemptable rest

/-- A sample world of four endpoints, of which `down1` and `down2` do not answer. -/
def fourEndpoints : Env Unit :=
  { getBlockNumber := fun rpc w =>
      if rpc = "down1" ∨ rpc = "down2" then (.error "could not detect network", w)
      else (.ok 11999, w)
    queryFilter := fun _ _ _ _ w => (.ok [], w)
    fetch := fun _ w => (.ok { status := 200, success := true, text := .ok "" }, w) }

/-- A sample backend that answers `200` with a body that has no `success: true`. -/
def successMissing : Env Unit :=
  { getBlockNumber := fun _ w => (.ok 11999, w)
    queryFilter := fun _ _ _ _ w => (.ok [], w)
    fetch := fun _ w => (.ok { status := 200, success := false, text := .ok "" }, w) }

/-- A sample variant-B event: token list `[7, 9]` and amount `1500000000000000000`. -/
def sampleAltEvent : Event :=
  { args := some { orderHash := some "0xabc", offerer := some "0xSeller",
                   fulfiller := some "0xBuyer", amount := some 1500000000000000000,
                   tokenIds := some [7, 9] }
    blockNumber := 100 }

/-- The sample variant-B event with an empty token list. -/
def emptyTokensEvent : Event :=
  { args := some { orderHash := some "0xabc", offerer := some "0xSeller",
                   fulfiller := some "0xBuyer", amount := some 1500000000000000000,
                   tokenIds := some [] }
    blockNumber := 100 }

/-- The environment of the sample server; its store gives a row found present the open
columns of the row written. -/
def sampleServerEnv : ServerEnv :=
  { NFT_CONTRACT_ADDRESS := .str "0xnft"
    SEAPORT_CONTRACT_ADDRESS := .str "0xseaport"
    resolve := fun _ written => written }

/-- The body the listing flow of `main.js` posts for token `7` at price `2`, with the signed
order as `seaportOrder`. -/
def listingBody : Payload :=
  { tokenId := .num 7
    price := .num 2
    sellerAddress := .str "0xSeller"
    buyerAddress := .undefined
    seaportOrder := .object "signed order of 0xabc" "[object Object]"
    orderHash := .str "0xabc"
    image := .null
    nftContract := .undefined
    marketplaceContract := .undefined
    status := .undefined
    onChainBlock := .undefined }

/-- The table after the listing flow has posted `listingBody`. -/
def listedStore : Store :=
  (postOrder sampleServerEnv "id-1" "2025-01-01T00:00:00.000Z" none listingBody []).2

/-- The payload of the sample variant-B event, submitted with status `cancelled`. -/
def cancelledBody : Payload :=
  { altFulfilledPayload sampleConfig sampleAltEvent with status := .str "cancelled" }

/-- A sample chain: every endpoint answers block `11999`; the first chunk holds one
variant-A fulfilment, one variant-B fulfilment and one cancellation, the other chunks hold
no event. -/
def sampleChain : Env Unit :=
  { getBlockNumber := fun _ w => (.ok 11999, w)
    queryFilter := fun _ kind start _ w =>
      if start = 0 then
        match kind with
        | .primaryFulfilled =>
          (.ok [{ args := some { orderHash := some "0xabc", offerer := some "0xSeller",
                                 fulfiller := some "0xBuyer", amount := none,
                                 tokenIds := none }
                  blockNumber := 100 }], w)
        | .altFulfilled => (.ok [sampleAltEvent], w)
        | .cancelled =>
          (.ok [{ args := some { orderHash := some "0xdef", offerer := some "0xSeller",
                                 fulfiller := none, amount := none, tokenIds := none }
                  blockNumber := 200 }], w)
      else (.ok [], w)
    fetch := fun _ w => (.error "not used", w) }

/-- A sample server that answers every request and whose store reports no error. -/
def sampleServer : Server :=
  { env := sampleServerEnv
    nanoid := fun n => toString n
    now := fun _ => "2025-01-01T00:00:00.000Z"
    dbError := fun _ => none
    netError := fun _ => none
    render := fun reply => reply.error.getD "" }

/-! ## The chunked query system: C1, C2, C3 -/

theorem queryInChunksW_trace {ω : Type} (W to_ : Int) (hW : 0 ≤ W) (callback : Callback ω) :
    ∀ (fuel : Nat) (start : Int) (j : Job ω), (to_ + 1 - start).toNat ≤ fuel →
      ∃ j2, queryInChunksW W callback to_ fuel start j
        = some (chunkTrace W to_ fuel start, j2) := by
  intro fuel
  induction fuel with
  | zero =>
    intro start j h
    have hlt : ¬ start ≤ to_ := by omega
    exact ⟨j, by simp [queryInChunksW, chunkTrace, hlt]⟩
  | succ fuel ih =>
    intro start j h
    by_cases hle : start ≤ to_
    · have hfuel : (to_ + 1 - (min (start + W) to_ + 1)).toNat ≤ fuel := by
        have : start ≤ min (start + W) to_ := le_min (by omega) hle
        omega
      simp only [queryInChunksW, chunkTrace, hle, if_true]
      obtain ⟨j2, hj2⟩ := ih (min (start + W) to_ + 1) _ hfuel
      rw [hj2]
      exact ⟨j2, rfl⟩
    · exact ⟨j, by simp [queryInChunksW, chunkTrace, hle]⟩

theorem chunkTrace_spec (W to_ : Int) (hW : 0 ≤ W) :
    ∀ (fuel : Nat) (start : Int), (to_ + 1 - start).toNat ≤ fuel →
      (∀ c ∈ chunkTrace W to_ fuel start,
        start ≤ c.1 ∧ c.1 ≤ c.2 ∧ c.2 ≤ to_ ∧ c.2 - c.1 ≤ W) ∧
      List.Chain' (fun a b : Int × Int => b.1 = a.2 + 1) (chunkTrace W to_ fuel start) ∧
      (start ≤ to_ → (chunkTrace W to_ fuel start).head?.map Prod.fst = some start ∧
        (chunkTrace W to_ fuel start).getLast?.map Prod.snd = some to_) ∧
      (∀ b, start ≤ b → b ≤ to_ → ∃ c ∈ chunkTrace W to_ fuel start, c.1 ≤ b ∧ b ≤ c.2) := by
  intro fuel
  induction fuel with
  | zero =>
    intro start h
    have hlt : ¬ start ≤ to_ := by omega
    refine ⟨by simp [chunkTrace], by simp [chunkTrace], fun h => absurd h hlt, ?_⟩
    intro b hb hb2
    omega
  | succ fuel ih =>
    intro start h
    by_cases hle : start ≤ to_
    · have hmin : start ≤ min (start + W) to_ := le_min (by omega) hle
      have hmin2 : min (start + W) to_ ≤ to_ := min_le_right _ _
      have hmin3 : min (start + W) to_ ≤ start + W := min_le_left _ _
      have hfuel : (to_ + 1 - (min (start + W) to_ + 1)).toNat ≤ fuel := by omega
      obtain ⟨h1, h2, h3, h4⟩ := ih (min (start + W) to_ + 1) hfuel
      simp only [chunkTrace, hle, if_true]
      refine ⟨?_, ?_, ?_, ?_⟩
      · intro c hc
        rcases List.mem_cons.1 hc with rfl | hc
        · exact ⟨le_refl _, hmin, hmin2, by simp only; omega⟩
        · obtain ⟨a, b, c2, d⟩ := h1 c hc
          exact ⟨by omega, b, c2, d⟩
      · rw [List.chain'_cons']
        refine ⟨?_, h2⟩
        intro y hy
        by_cases hnext : min (start + W) to_ + 1 ≤ to_
        · have := (h3 hnext).1
          cases hT : chunkTrace W to_ fuel (min (start + W) to_ + 1) with
          | nil => rw [hT] at hy; simp at hy
          | cons x xs =>
            rw [hT] at hy this
            simp at hy this
            subst hy
            exact this
        · cases hT : chunkTrace W to_ fuel (min (start + W) to_ + 1) with
          | nil => rw [hT] at hy; simp at hy
          | cons x xs =>
            have := (h1 x (by rw [hT]; simp)).1
            have := (h1 x (by rw [hT]; simp)).2.2.1
            have := (h1 x (by rw [hT]; simp)).2.1
            omega
      · intro _
        refine ⟨by simp, ?_⟩
        by_cases hnext : min (start + W) to_ + 1 ≤ to_
        · have hl := (h3 hnext).2
          cases hT : chunkTrace W to_ fuel (min (start + W) to_ + 1) with
          | nil => rw [hT] at hl; simp at hl
          | cons x xs =>
            rw [hT] at hl
            rw [List.getLast?_cons_cons]
            exact hl
        · cases hT : chunkTrace W to_ fuel (min (start + W) to_ + 1) with
          | nil =>
            simp
            omega
          | cons x xs =>
            have := (h1 x (by rw [hT]; simp)).1
            have := (h1 x (by rw [hT]; simp)).2.2.1
            have := (h1 x (by rw [hT]; simp)).2.1
            omega
      · intro b hb hb2
        by_cases hin : b ≤ min (start + W) to_
        · exact ⟨_, List.mem_cons_self _ _, hb, hin⟩
        · obtain ⟨c, hc, hc2⟩ := h4 b (by omega) hb2
          exact ⟨c, List.mem_cons_of_mem _ hc, hc2⟩
    · refine ⟨by simp [chunkTrace, hle], by simp [chunkTrace, hle], fun h => absurd h hle, ?_⟩
      intro b hb hb2
      omega

theorem chunkTrace_done (W to_ : Int) (fuel : Nat) (start : Int) (h : ¬ start ≤ to_) :
    chunkTrace W to_ fuel start = [] := by
  cases fuel <;> simp [chunkTrace, h]

theorem chunkTrace_12000 (s : Int) (fuel : Nat) (h : 3 ≤ fuel) :
    chunkTrace CHUNK (s + 11999) fuel s
      = [(s, s + 5000), (s + 5001, s + 10001), (s + 10002, s + 11999)] := by
  obtain ⟨n, rfl⟩ : ∃ n, fuel = n + 3 := ⟨fuel - 3, by omega⟩
  have e1 : min (s + 5000) (s + 11999) = s + 5000 := min_eq_left (by omega)
  have e2 : min (s + 5000 + 1 + 5000) (s + 11999) = s + 10001 := by
    rw [min_eq_left (by omega)]; omega
  have e3 : min (s + 10001 + 1 + 5000) (s + 11999) = s + 11999 := min_eq_right (by omega)
  have l1 : s ≤ s + 11999 := by omega
  have l2 : s + 5000 + 1 ≤ s + 11999 := by omega
  have l3 : s + 10001 + 1 ≤ s + 11999 := by omega
  have d : chunkTrace 5000 (s + 11999) n (s + 11999 + 1) = [] :=
    chunkTrace_done _ _ _ _ (by omega)
  have a1 : s + 5000 + 1 = s + 5001 := by omega
  have a2 : s + 10001 + 1 = s + 10002 := by omega
  simp only [chunkTrace, CHUNK, l1, l2, l3, e1, e2, e3, d, if_true]
  rw [a1, a2]

/-- C1. For every chunk width `W ≥ 0` and all integers `from ≤ to`, whatever the callback
does, `queryInChunks` returns once the fuel covers the range, and the `(start, end)` pairs
it passed to the callback partition `[from, to]`: the first start is `from`, the last end
is `to`, each `start ≤ end` with `end - start ≤ W`, each next start is the previous end
plus one, and a block lies in `[from, to]` exactly when it lies in one of the pairs. -/
theorem queryInChunks_partition {ω : Type} (W from_ to_ : Int) (hW : 0 ≤ W)
    (hrange : from_ ≤ to_) (callback : Callback ω) (j : Job ω) (extra : Nat) :
    ∃ calls j2,
      queryInChunksW W callback to_ (scanFuel from_ to_ + extra) from_ j = some (calls, j2) ∧
      calls.head?.map Prod.fst = some from_ ∧
      calls.getLast?.map Prod.snd = some to_ ∧
      (∀ c ∈ calls, c.1 ≤ c.2 ∧ c.2 - c.1 ≤ W) ∧
      List.Chain' (fun a b : Int × Int => b.1 = a.2 + 1) calls ∧
      (∀ b : Int, (from_ ≤ b ∧ b ≤ to_) ↔ ∃ c ∈ calls, c.1 ≤ b ∧ b ≤ c.2) := by
  have hfuel : (to_ + 1 - from_).toNat ≤ scanFuel from_ to_ + extra := by
    unfold scanFuel; omega
  obtain ⟨j2, hj2⟩ := queryInChunksW_trace W to_ hW callback _ from_ j hfuel
  obtain ⟨h1, h2, h3, h4⟩ := chunkTrace_spec W to_ hW _ from_ hfuel
  refine ⟨_, j2, hj2, (h3 hrange).1, (h3 hrange).2, fun c hc => ⟨(h1 c hc).2.1, (h1 c hc).2.2.2⟩,
    h2, fun b => ⟨fun hb => h4 b hb.1 hb.2, ?_⟩⟩
  rintro ⟨c, hc, hb1, hb2⟩
  obtain ⟨a1, _, a3, _⟩ := h1 c hc
  exact ⟨by omega, by omega⟩

/-- Witness of C1: width `2` over the blocks `0` to `7`. -/
theorem queryInChunks_partition_witness :
    ∃ calls j2,
      queryInChunksW 2 neverFails 7 (scanFuel 0 7 + 0) 0 (Job.init ()) = some (calls, j2) ∧
      calls.head?.map Prod.fst = some 0 ∧
      calls.getLast?.map Prod.snd = some 7 ∧
      (∀ c ∈ calls, c.1 ≤ c.2 ∧ c.2 - c.1 ≤ 2) ∧
      List.Chain' (fun a b : Int × Int => b.1 = a.2 + 1) calls ∧
      (∀ b : Int, (0 ≤ b ∧ b ≤ 7) ↔ ∃ c ∈ calls, c.1 ≤ b ∧ b ≤ c.2) :=
  queryInChunks_partition 2 0 7 (by decide) (by decide) neverFails (Job.init ()) 0

theorem queryInChunksW_applyAll {ω : Type} (W to_ : Int) (hW : 0 ≤ W)
    (callback : Callback ω) :
    ∀ (fuel : Nat) (start : Int) (j : Job ω), (to_ + 1 - start).toNat ≤ fuel →
      queryInChunksW W callback to_ fuel start j
        = some (chunkTrace W to_ fuel start,
            applyAll callback (chunkTrace W to_ fuel start) j) := by
  intro fuel
  induction fuel with
  | zero =>
    intro start j h
    have hlt : ¬ start ≤ to_ := by omega
    simp [queryInChunksW, chunkTrace, applyAll, hlt]
  | succ fuel ih =>
    intro start j h
    by_cases hle : start ≤ to_
    · have hfuel : (to_ + 1 - (min (start + W) to_ + 1)).toNat ≤ fuel := by
        have : start ≤ min (start + W) to_ := le_min (by omega) hle
        omega
      simp only [queryInChunksW, chunkTrace, applyAll, hle, if_true]
      rw [ih (min (start + W) to_ + 1) _ hfuel]
    · simp [queryInChunksW, chunkTrace, applyAll, hle]

/-- On a callback whose rejections are `Error` objects, `queryInChunksAny` is
`queryInChunksW` and does not reject. -/
theorem queryInChunksAny_ofErrors {ω : Type} (W to_ : Int) (callback : Callback ω) :
    ∀ (fuel : Nat) (start : Int) (j : Job ω),
      queryInChunksAny W (ofErrors callback) to_ fuel start j
        = (queryInChunksW W callback to_ fuel start j).map (fun r => (r.1, .ok (), r.2)) := by
  intro fuel
  induction fuel with
  | zero =>
    intro start j
    by_cases hle : start ≤ to_ <;> simp [queryInChunksAny, queryInChunksW, hle]
  | succ fuel ih =>
    intro start j
    by_cases hle : start ≤ to_
    · simp only [queryInChunksAny, queryInChunksW, hle, if_true, ofErrors]
      rcases hc : callback start (min (start + W) to_)
        (j.log (.chunkScan start (min (start + W) to_))) with ⟨r, jc⟩
      cases r with
      | ok u =>
        simp only [ih]
        cases queryInChunksW W callback to_ fuel (min (start + W) to_ + 1) jc <;> rfl
      | error m =>
        simp only [ih]
        cases queryInChunksW W callback to_ fuel (min (start + W) to_ + 1)
          (jc.log (.chunkError m)) <;> rfl
    · simp [queryInChunksAny, queryInChunksW, hle]

/-- C2, on the code. On a callback whose rejections are `Error` objects, as those of `main`
are, `queryInChunks` returns without rejecting, having applied the callback to every
sub-interval of the range in order, whichever of them the callback rejected on. On a
callback that rejects with `undefined` or `null` it does not: the `catch` reads `e.message`
and throws. The sample callback that rejects with `undefined` on the first sub-interval of
`0 .. 11999` is invoked once and `queryInChunks` rejects with a `TypeError`, where the same
callback rejecting with an `Error` is invoked on all three sub-intervals. -/
theorem queryInChunks_nullish_rejection_stops_scan :
    (∀ (ω : Type) (callback : Callback ω) (from_ to_ : Int) (j : Job ω) (extra : Nat),
      queryInChunksAny CHUNK (ofErrors callback) to_ (scanFuel from_ to_ + extra) from_ j
        = some (chunkTrace CHUNK to_ (scanFuel from_ to_ + extra) from_, .ok (),
            applyAll callback (chunkTrace CHUNK to_ (scanFuel from_ to_ + extra) from_) j)) ∧
    (queryInChunksAny CHUNK (countingCallback (.value "boom")) 11999 12000 0
        (Job.init ())).map (fun r => (r.1, r.2.1, r.2.2.totalFulfilled, r.2.2.console))
      = some ([(0, 5000), (5001, 10001), (10002, 11999)], .ok (), 3,
          [.chunkScan 0 5000, .chunkError "boom", .chunkScan 5001 10001,
           .chunkScan 10002 11999]) ∧
    (queryInChunksAny CHUNK (countingCallback .undefined) 11999 12000 0
        (Job.init ())).map (fun r => (r.1, r.2.1, r.2.2.totalFulfilled, r.2.2.console))
      = some ([(0, 5000)],
          .error "TypeError: Cannot read properties of undefined (reading 'message')", 1,
          [.chunkScan 0 5000]) ∧
    (queryInChunksAny CHUNK (countingCallback .null) 11999 12000 0
        (Job.init ())).map (fun r => (r.1, r.2.1, r.2.2.totalFulfilled, r.2.2.console))
      = some ([(0, 5000)],
          .error "TypeError: Cannot read properties of null (reading 'message')", 1,
          [.chunkScan 0 5000]) := by
  refine ⟨?_, by rfl, by rfl, by rfl⟩
  intro ω callback from_ to_ j extra
  have hfuel : (to_ + 1 - from_).toNat ≤ scanFuel from_ to_ + extra := by
    unfold scanFuel; omega
  rw [queryInChunksAny_ofErrors,
    queryInChunksW_applyAll CHUNK to_ (by decide) callback _ from_ j hfuel]
  rfl

@[simp]
theorem Job.log_world {ω : Type} (j : Job ω) (line : LogLine) :
    (j.log line).world = j.world := rfl

theorem postOrderEvent_record {ω : Type} (env : Env ω) (payload : Payload)
    (j : Job (ω × List (EventKind × Int × Int))) :
    (postOrderEvent (recorded env) payload j).2.world.2 = j.world.2 := by
  rcases hf : (recorded env).fetch payload j.world with ⟨r, w⟩
  have hw : w.2 = j.world.2 := by
    have := congrArg (fun x => x.2.2) hf
    simpa [recorded] using this.symm
  cases r with
  | error m => simp [postOrderEvent, hf, hw]
  | ok res =>
    by_cases hok : res.ok
    · simp [postOrderEvent, hf, hok, hw]
    · cases ht : res.text <;> simp [postOrderEvent, hf, hok, ht, hw]

theorem counted_world {ω : Type} (kind : EventKind) (payload : Payload) (j : Job ω) :
    (counted kind payload j).world = j.world := by
  cases kind <;> rfl

theorem submitEvents_record {ω : Type} (env : Env ω) (cfg : Config) (kind : EventKind) :
    ∀ (events : List Event) (j : Job (ω × List (EventKind × Int × Int))),
      (submitEvents (recorded env) cfg kind events j).world.2 = j.world.2 := by
  intro events
  induction events with
  | nil => intro j; rfl
  | cons ev rest ih =>
    intro j
    have hq := postOrderEvent_record env (payloadOf cfg kind ev) j
    rcases hp : postOrderEvent (recorded env) (payloadOf cfg kind ev) j with ⟨b, j1⟩
    rw [hp] at hq
    cases b
    · simp only [submitEvents, hp]
      rw [ih]; exact hq
    · simp only [submitEvents, hp]
      rw [ih, counted_world]; exact hq

/-- Against the recording world, one call of the callback of a scan is one `queryFilter`
call on its category and its sub-interval. -/
theorem scanCallback_record {ω : Type} (env : Env ω) (cfg : Config) (url : String)
    (kind : EventKind) (start end_ : Int) (j : Job (ω × List (EventKind × Int × Int))) :
    (scanCallback (recorded env) cfg url kind start end_ j).2.world.2
      = j.world.2 ++ [(kind, start, end_)] := by
  rcases hf : (recorded env).queryFilter url kind start end_ j.world with ⟨r, w⟩
  have hw : w.2 = j.world.2 ++ [(kind, start, end_)] := by
    have := congrArg (fun x => x.2.2) hf
    simpa [recorded] using this.symm
  cases r with
  | error m => simp [scanCallback, hf, hw]
  | ok events => simp [scanCallback, hf, submitEvents_record, hw]

theorem applyAll_record {ω : Type} (env : Env ω) (cfg : Config) (url : String)
    (kind : EventKind) :
    ∀ (chunks : List (Int × Int)) (j : Job (ω × List (EventKind × Int × Int))),
      (applyAll (scanCallback (recorded env) cfg url kind) chunks j).world.2
        = j.world.2 ++ chunks.map (fun c => (kind, c.1, c.2)) := by
  intro chunks
  induction chunks with
  | nil => intro j; simp [applyAll]
  | cons c rest ih =>
    intro j
    obtain ⟨start, end_⟩ := c
    have hcb := scanCallback_record env cfg url kind start end_ (j.log (.chunkScan start end_))
    rcases hc : scanCallback (recorded env) cfg url kind start end_
      (j.log (.chunkScan start end_)) with ⟨r, jc⟩
    rw [hc] at hcb
    simp only [Job.log_world] at hcb
    cases r with
    | ok u =>
      simp only [applyAll, hc]
      rw [ih, hcb]
      simp
    | error m =>
      simp only [applyAll, hc]
      rw [ih, Job.log_world, hcb]
      simp

theorem scan_record {ω : Type} (env : Env ω) (cfg : Config) (url : String)
    (kind : EventKind) (W to_ : Int) (hW : 0 ≤ W) (fuel : Nat) (start : Int)
    (j : Job (ω × List (EventKind × Int × Int))) (h : (to_ + 1 - start).toNat ≤ fuel) :
    ∃ j2, queryInChunksW W (scanCallback (recorded env) cfg url kind) to_ fuel start j
        = some (chunkTrace W to_ fuel start, j2) ∧
      j2.world.2 = j.world.2 ++ (chunkTrace W to_ fuel start).map (fun c => (kind, c.1, c.2)) :=
  ⟨_, queryInChunksW_applyAll W to_ hW _ fuel start j h, applyAll_record env cfg url kind _ j⟩

theorem initProviderLoop_record {ω : Type} (env : Env ω) :
    ∀ (rpcs : List (Option String)) (j : Job (ω × List (EventKind × Int × Int))),
      (initProviderLoop (recorded env) rpcs j).2.world.2 = j.world.2 := by
  intro rpcs
  induction rpcs with
  | nil => intro j; rfl
  | cons rpc rest ih =>
    intro j
    cases rpc with
    | none => simp only [initProviderLoop]; exact ih j
    | some url =>
      simp only [initProviderLoop]
      by_cases hu : url = ""
      · simp only [hu, if_true]; exact ih j
      · simp only [hu, if_false]
        rcases hg : (recorded env).getBlockNumber url j.world with ⟨r, w⟩
        have hw : w.2 = j.world.2 := by
          have := congrArg (fun x => x.2.2) hg
          simpa [recorded] using this.symm
        cases r with
        | ok n => simpa using hw
        | error m => simp only; rw [ih]; simpa using hw

theorem initProvider_record {ω : Type} (env : Env ω) (rpcs : List (Option String))
    (j : Job (ω × List (EventKind × Int × Int))) :
    (initProvider (recorded env) rpcs j).2.2.world.2 = j.world.2 := by
  unfold initProvider
  have h := initProviderLoop_record env rpcs (j.log .rpcTestStart)
  cases hp : (initProviderLoop (recorded env) rpcs (j.log .rpcTestStart)).2.provider <;>
    simp [hp, h]

/-- C3. With `CHUNK = 5000`, for every starting block `s` the scan of the 12,000 blocks
`s .. s + 11999` applies any callback to exactly three sub-intervals; and when `main` has
selected an endpoint that reports `FROM_BLOCK + 11999` as the latest block, it ends with
exit code `0` and the world has received exactly nine `queryFilter` calls: three for each
category, on the same three sub-intervals, the categories in the order primary fulfilled,
alt fulfilled, cancelled. -/
theorem main_three_queries_per_category {ω : Type} (env : Env ω) (cfg : Config) (w : ω)
    (s : Int) (fuel : Nat) (hfuel : 12000 ≤ fuel) :
    (∀ (callback : Callback ω) (j : Job ω),
      queryInChunks callback s (s + 11999) fuel j
        = some ([(s, s + 5000), (s + 5001, s + 10001), (s + 10002, s + 11999)],
            applyAll callback
              [(s, s + 5000), (s + 5001, s + 10001), (s + 10002, s + 11999)] j)) ∧
    (∀ url : String,
      (initProvider (recorded env) cfg.RPC_LIST ((Job.init (w, [])).log .syncStart)).2.1
        = .ok url →
      ((recorded env).getBlockNumber url
        (((initProvider (recorded env) cfg.RPC_LIST
          ((Job.init (w, [])).log .syncStart)).2.2).log (.usedRpc url)).world).1
        = .ok (cfg.FROM_BLOCK + 11999) →
      ∃ j, main (recorded env) cfg fuel (w, []) = some (0, j) ∧
        j.world.2
          = [(.primaryFulfilled, cfg.FROM_BLOCK, cfg.FROM_BLOCK + 5000),
             (.primaryFulfilled, cfg.FROM_BLOCK + 5001, cfg.FROM_BLOCK + 10001),
             (.primaryFulfilled, cfg.FROM_BLOCK + 10002, cfg.FROM_BLOCK + 11999),
             (.altFulfilled, cfg.FROM_BLOCK, cfg.FROM_BLOCK + 5000),
             (.altFulfilled, cfg.FROM_BLOCK + 5001, cfg.FROM_BLOCK + 10001),
             (.altFulfilled, cfg.FROM_BLOCK + 10002, cfg.FROM_BLOCK + 11999),
             (.cancelled, cfg.FROM_BLOCK, cfg.FROM_BLOCK + 5000),
             (.cancelled, cfg.FROM_BLOCK + 5001, cfg.FROM_BLOCK + 10001),
             (.cancelled, cfg.FROM_BLOCK + 10002, cfg.FROM_BLOCK + 11999)] ∧
        ∀ kind : EventKind, (j.world.2.filter (fun q => q.1 = kind)).length = 3) := by
  have hW : (0 : Int) ≤ CHUNK := by decide
  have h3 : 3 ≤ fuel := by omega
  refine ⟨?_, ?_⟩
  · intro callback j
    unfold queryInChunks
    rw [queryInChunksW_applyAll CHUNK (s + 11999) hW callback fuel s j (by omega),
      chunkTrace_12000 s fuel h3]
  · intro url hsel hlatest
    rcases hip : initProvider (recorded env) cfg.RPC_LIST ((Job.init (w, [])).log .syncStart)
      with ⟨att, res, j1⟩
    have hq1 : j1.world.2 = [] := by
      have := initProvider_record env cfg.RPC_LIST ((Job.init (w, [])).log .syncStart)
      rw [hip] at this
      exact this
    rw [hip] at hsel hlatest
    simp only at hsel hlatest
    subst hsel
    rcases hg : (recorded env).getBlockNumber url (j1.log (.usedRpc url)).world with ⟨r, w3⟩
    have hw3 : w3.2 = [] := by
      have := congrArg (fun x => x.2.2) hg
      simp only [recorded, Job.log_world] at this
      rw [← this]; exact hq1
    rw [hg] at hlatest
    simp only at hlatest
    subst hlatest
    have hfu : (cfg.FROM_BLOCK + 11999 + 1 - cfg.FROM_BLOCK).toNat ≤ fuel := by omega
    obtain ⟨j4, hj4, hq4⟩ := scan_record env cfg url .primaryFulfilled CHUNK
      (cfg.FROM_BLOCK + 11999) hW fuel cfg.FROM_BLOCK
      ({ (j1.log (.usedRpc url)) with world := w3 }.log
        (.blockRange cfg.FROM_BLOCK (cfg.FROM_BLOCK + 11999))) hfu
    obtain ⟨j5, hj5, hq5⟩ := scan_record env cfg url .altFulfilled CHUNK
      (cfg.FROM_BLOCK + 11999) hW fuel cfg.FROM_BLOCK j4 hfu
    obtain ⟨j6, hj6, hq6⟩ := scan_record env cfg url .cancelled CHUNK
      (cfg.FROM_BLOCK + 11999) hW fuel cfg.FROM_BLOCK j5 hfu
    rw [chunkTrace_12000 _ fuel h3] at hj4 hj5 hj6 hq4 hq5 hq6
    refine ⟨((j6.log .syncDone).log (.fulfilledTotal j6.totalFulfilled)).log
      (.cancelledTotal j6.totalCancelled), ?_, ?_⟩
    · simp only [main, hip, hg, queryInChunks, hj4, hj5, hj6]
    · have hq3 : (({ (j1.log (.usedRpc url)) with world := w3 } : Job _).log
          (.blockRange cfg.FROM_BLOCK (cfg.FROM_BLOCK + 11999))).world.2 = [] := hw3
      rw [hq3] at hq4
      simp only [Job.log_world, hq6, hq5, hq4]
      refine ⟨by simp, ?_⟩
      intro kind
      cases kind <;> simp

/-- Witness of C3: the sample world, scanned from block `0` to block `11999`. -/
theorem main_three_queries_per_category_witness :
    ∃ j, main (recorded sampleEnv) sampleConfig 12000 ((), []) = some (0, j) ∧
      j.world.2
        = [(.primaryFulfilled, sampleConfig.FROM_BLOCK, sampleConfig.FROM_BLOCK + 5000),
           (.primaryFulfilled, sampleConfig.FROM_BLOCK + 5001, sampleConfig.FROM_BLOCK + 10001),
           (.primaryFulfilled, sampleConfig.FROM_BLOCK + 10002, sampleConfig.FROM_BLOCK + 11999),
           (.altFulfilled, sampleConfig.FROM_BLOCK, sampleConfig.FROM_BLOCK + 5000),
           (.altFulfilled, sampleConfig.FROM_BLOCK + 5001, sampleConfig.FROM_BLOCK + 10001),
           (.altFulfilled, sampleConfig.FROM_BLOCK + 10002, sampleConfig.FROM_BLOCK + 11999),
           (.cancelled, sampleConfig.FROM_BLOCK, sampleConfig.FROM_BLOCK + 5000),
           (.cancelled, sampleConfig.FROM_BLOCK + 5001, sampleConfig.FROM_BLOCK + 10001),
           (.cancelled, sampleConfig.FROM_BLOCK + 10002, sampleConfig.FROM_BLOCK + 11999)] ∧
      ∀ kind : EventKind, (j.world.2.filter (fun q => q.1 = kind)).length = 3 :=
  (main_three_queries_per_category sampleEnv sampleConfig () 0 12000 (by decide)).2
    "https://rpc.apechain.com/http" (by rfl) (by rfl)

/-! ## The payloads: C4, C5, C6 -/

theorem digitOf_digitChar (d : Nat) (h : d < 10) : digitOf (Nat.digitChar d) = some d := by
  interval_cases d <;> rfl

theorem digitChar_ne_dot (d : Nat) (h : d < 10) : (Nat.digitChar d != '.') = true := by
  interval_cases d <;> rfl

theorem readDigits_append (l1 l2 : List Char) :
    ∀ acc, readDigits (l1 ++ l2) acc = (readDigits l1 acc).bind (readDigits l2) := by
  induction l1 with
  | nil => intro acc; rfl
  | cons c cs ih =>
    intro acc
    simp only [List.cons_append, readDigits]
    cases digitOf c with
    | none => rfl
    | some d => exact ih _

theorem readDigits_zeros (m : Nat) :
    ∀ acc, readDigits (List.replicate m '0') acc = some (acc * 10 ^ m) := by
  induction m with
  | zero => intro acc; simp [readDigits]
  | succ m ih =>
    intro acc
    have h0 : digitOf '0' = some 0 := rfl
    simp only [List.replicate_succ, readDigits, h0, ih]
    congr 1
    ring

theorem toDigitsCore_read (fuel : Nat) :
    ∀ (n : Nat) (ds : List Char), n < fuel →
      ∃ l : List Char, Nat.toDigitsCore 10 fuel n ds = l ++ ds ∧ l ≠ [] ∧
        (∀ c ∈ l, (c != '.') = true) ∧
        ∀ acc, readDigits l acc = some (acc * 10 ^ l.length + n) := by
  induction fuel with
  | zero => intro n ds h; omega
  | succ fuel ih =>
    intro n ds h
    have hd : n % 10 < 10 := Nat.mod_lt _ (by decide)
    by_cases hz : n / 10 = 0
    · refine ⟨[Nat.digitChar (n % 10)], by simp [Nat.toDigitsCore, hz], by simp, ?_, ?_⟩
      · intro c hc
        rw [List.mem_singleton.1 hc]
        exact digitChar_ne_dot _ hd
      · intro acc
        simp only [readDigits, digitOf_digitChar _ hd, List.length_singleton]
        congr 1
        omega
    · obtain ⟨l, hl, _, hdot, hread⟩ := ih (n / 10) (Nat.digitChar (n % 10) :: ds) (by omega)
      refine ⟨l ++ [Nat.digitChar (n % 10)], by simp [Nat.toDigitsCore, hz, hl], by simp, ?_, ?_⟩
      · intro c hc
        rcases List.mem_append.1 hc with hc | hc
        · exact hdot c hc
        · rw [List.mem_singleton.1 hc]
          exact digitChar_ne_dot _ hd
      · intro acc
        rw [readDigits_append, hread]
        simp only [Option.bind, readDigits, digitOf_digitChar _ hd, List.length_append,
          List.length_singleton]
        congr 1
        rw [pow_succ]
        have := Nat.div_add_mod n 10
        nlinarith [this]

theorem toDigits_read (n : Nat) :
    Nat.toDigits 10 n ≠ [] ∧ (∀ c ∈ Nat.toDigits 10 n, (c != '.') = true) ∧
      ∀ acc, readDigits (Nat.toDigits 10 n) acc
        = some (acc * 10 ^ (Nat.toDigits 10 n).length + n) := by
  obtain ⟨l, hl, hne, hdot, hread⟩ := toDigitsCore_read (n + 1) n [] (by omega)
  have : Nat.toDigits 10 n = l := by simp [Nat.toDigits, hl]
  rw [this]
  exact ⟨hne, hdot, hread⟩

theorem takeWhile_eq_replicate (l : List Char) :
    l.takeWhile (fun c => c == '0') = List.replicate (l.takeWhile (fun c => c == '0')).length '0' := by
  induction l with
  | nil => rfl
  | cons c cs ih =>
    by_cases hc : c = '0'
    · subst hc
      simp only [List.takeWhile_cons, beq_self_eq_true, if_true, List.length_cons,
        List.replicate_succ]
      rw [← ih]
    · simp [List.takeWhile_cons, hc]

theorem stripZeros_split (l : List Char) :
    ∃ m, l = (l.reverse.dropWhile (fun c => c == '0')).reverse ++ List.replicate m '0' := by
  refine ⟨(l.reverse.takeWhile (fun c => c == '0')).length, ?_⟩
  have h := List.takeWhile_append_dropWhile (fun c => c == '0') l.reverse
  have h2 := congrArg List.reverse h
  rw [List.reverse_append, List.reverse_reverse] at h2
  rw [takeWhile_eq_replicate, List.reverse_replicate] at h2
  exact h2.symm

theorem takeWhile_dot (whole fraction : List Char) (h : ∀ c ∈ whole, (c != '.') = true) :
    (whole ++ '.' :: fraction).takeWhile (fun c => c != '.') = whole ∧
    (whole ++ '.' :: fraction).dropWhile (fun c => c != '.') = '.' :: fraction := by
  induction whole with
  | nil => simp
  | cons c cs ih =>
    have hc := h c (List.mem_cons_self _ _)
    have ih2 := ih (fun d hd => h d (List.mem_cons_of_mem _ hd))
    simp only [List.cons_append, List.takeWhile_cons, List.dropWhile_cons, hc, if_true]
    exact ⟨by rw [ih2.1], ih2.2⟩

/-- The fraction part that `formatEther` writes for a remainder `r < 10 ^ 18` reads as
`r / 10 ^ 18`. -/
theorem fraction_read (r : Nat) (hr : r < 10 ^ 18) :
    ∃ b : Nat, stripZeros (padZeros 18 (Nat.toDigits 10 r)) ≠ [] ∧
      readDigits (stripZeros (padZeros 18 (Nat.toDigits 10 r))) 0 = some b ∧
      (b : ℚ) / (10 : ℚ) ^ (stripZeros (padZeros 18 (Nat.toDigits 10 r))).length
        = (r : ℚ) / (10 : ℚ) ^ 18 := by
  obtain ⟨_, _, hread⟩ := toDigits_read r
  have hlen : (Nat.toDigits 10 r).length ≤ 18 :=
    Nat.toDigitsCore_length 10 (by decide) (r + 1) r 18 hr (by decide)
  have hpadlen : (padZeros 18 (Nat.toDigits 10 r)).length = 18 := by
    simp [padZeros]; omega
  have hpad : readDigits (padZeros 18 (Nat.toDigits 10 r)) 0 = some r := by
    unfold padZeros
    rw [readDigits_append, readDigits_zeros]
    simp [Option.bind, hread]
  obtain ⟨m, hm⟩ := stripZeros_split (padZeros 18 (Nat.toDigits 10 r))
  generalize padZeros 18 (Nat.toDigits 10 r) = p at hpadlen hpad hm
  generalize hk : (p.reverse.dropWhile (fun c => c == '0')).reverse = kept at hm
  have hlen2 : kept.length + m = 18 := by
    rw [← hpadlen, hm]; simp
  rw [hm, readDigits_append] at hpad
  cases hv : readDigits kept 0 with
  | none => rw [hv] at hpad; simp [Option.bind] at hpad
  | some v =>
    rw [hv] at hpad
    simp only [Option.bind, readDigits_zeros, Option.some.injEq] at hpad
    by_cases he : kept = []
    · subst he
      have hv0 : v = 0 := by simpa [readDigits] using hv.symm
      have hr0 : r = 0 := by rw [← hpad, hv0]; simp
      refine ⟨0, by simp [stripZeros, hk], by simp [stripZeros, hk, readDigits, digitOf], ?_⟩
      simp [hr0]
    · have hs : stripZeros p = kept := by
        simp [stripZeros, hk, he]
      rw [hs]
      refine ⟨v, he, hv, ?_⟩
      have h18 : (10 : ℚ) ^ 18 = 10 ^ kept.length * 10 ^ m := by
        rw [← pow_add, hlen2]
      rw [h18, ← hpad]
      push_cast
      field_simp
      ring

/-- C6. For every variant-B `OrderFulfilled` event that carries an amount `a` (a
non-negative integer of base units), the payload's price is the string `formatEther a`,
and that string reads as exactly `a / 10 ^ 18`; for `a = 1500000000000000000` it is
`1.5`. -/
theorem altFulfilledPayload_price_exact (cfg : Config) (blockNumber : Int)
    (orderHash offerer fulfiller : Option String) (tokenIds : Option (List Nat)) (a : Nat) :
    (altFulfilledPayload cfg
      { args := some { orderHash := orderHash, offerer := offerer, fulfiller := fulfiller,
                       amount := some a, tokenIds := tokenIds },
        blockNumber := blockNumber }).price = .str (formatEther a) ∧
    readDecimal (formatEther a) = some ((a : ℚ) / (10 : ℚ) ^ 18) ∧
    formatEther 1500000000000000000 = "1.5" := by
  refine ⟨rfl, ?_, by decide⟩
  obtain ⟨hne, hdot, hread⟩ := toDigits_read (a / 10 ^ 18)
  obtain ⟨b, hfne, hb, hval⟩ := fraction_read (a % 10 ^ 18) (Nat.mod_lt _ (by positivity))
  obtain ⟨ht, hd⟩ := takeWhile_dot (Nat.toDigits 10 (a / 10 ^ 18))
    (stripZeros (padZeros 18 (Nat.toDigits 10 (a % 10 ^ 18)))) hdot
  have hw := hread 0
  simp only [zero_mul, zero_add] at hw
  have hne2 : (Nat.toDigits 10 (a / 10 ^ 18)).isEmpty = false := by
    cases h : Nat.toDigits 10 (a / 10 ^ 18) with
    | nil => exact absurd h hne
    | cons _ _ => rfl
  have hfne2 : (stripZeros (padZeros 18 (Nat.toDigits 10 (a % 10 ^ 18)))).isEmpty = false := by
    cases h : stripZeros (padZeros 18 (Nat.toDigits 10 (a % 10 ^ 18))) with
    | nil => exact absurd h hfne
    | cons _ _ => rfl
  simp only [readDecimal, formatEther, ht, hd, hw, hb, hne2, hfne2, Bool.or_self,
    Bool.false_eq_true, if_false, Option.some.injEq]
  rw [hval]
  have hsplit : (a : ℚ) = ((a / 10 ^ 18 : Nat) : ℚ) * 10 ^ 18 + ((a % 10 ^ 18 : Nat) : ℚ) := by
    have := Nat.div_add_mod a (10 ^ 18)
    have h2 : ((10 ^ 18 * (a / 10 ^ 18) + a % 10 ^ 18 : Nat) : ℚ) = (a : ℚ) := by rw [this]
    rw [← h2]
    push_cast
    ring
  rw [hsplit]
  field_simp

/-- C5. For every variant-B `OrderFulfilled` event whose token list is not empty, the
payload's `tokenId` is the first token identifier of the list, written in decimal, whatever
the rest of the list is; for the list `[7, 9]` it is `7`. -/
theorem altFulfilledPayload_tokenId_first (cfg : Config) (blockNumber : Int)
    (orderHash offerer fulfiller : Option String) (amount : Option Nat) (first : Nat)
    (rest : List Nat) :
    (altFulfilledPayload cfg
      { args := some { orderHash := orderHash, offerer := offerer, fulfiller := fulfiller,
                       amount := amount, tokenIds := some (first :: rest) },
        blockNumber := blockNumber }).tokenId = .str (toString first) ∧
    (altFulfilledPayload cfg
      { args := some { orderHash := orderHash, offerer := offerer, fulfiller := fulfiller,
                       amount := amount, tokenIds := some [7, 9] },
        blockNumber := blockNumber }).tokenId = .str "7" :=
  ⟨rfl, rfl⟩

/-- C4, on the code. A variant-B `OrderFulfilled` event without a token list gives a payload
whose `tokenId` is `null`, also when the event has no arguments at all; an event whose
token list is the empty array gives a payload whose `tokenId` is `undefined`, not `null`.
Building the payload fails in neither case. -/
theorem altFulfilledPayload_tokenId_missing (cfg : Config) (blockNumber : Int)
    (orderHash offerer fulfiller : Option String) (amount : Option Nat) :
    (altFulfilledPayload cfg
      { args := some { orderHash := orderHash, offerer := offerer, fulfiller := fulfiller,
                       amount := amount, tokenIds := none },
        blockNumber := blockNumber }).tokenId = .null ∧
    (altFulfilledPayload cfg { args := none, blockNumber := blockNumber }).tokenId = .null ∧
    (altFulfilledPayload cfg
      { args := some { orderHash := orderHash, offerer := offerer, fulfiller := fulfiller,
                       amount := amount, tokenIds := some [] },
        blockNumber := blockNumber }).tokenId = .undefined ∧
    (altFulfilledPayload sampleConfig emptyTokensEvent).tokenId ≠ .null :=
  ⟨rfl, rfl, rfl, by decide⟩

/-! ## The submit call: C7 -/

/-- C7, as amended. `postOrderEvent` returns `true` exactly when `fetch` resolves with a
response whose status is a success status (`res.ok`), whatever the body says; in every
other case (rejected status, network failure) it returns `false`. It has no path that
raises. -/
theorem postOrderEvent_true_iff_ok {ω : Type} (env : Env ω) (payload : Payload) (j : Job ω) :
    (postOrderEvent env payload j).1 = true ↔
      ∃ res w, env.fetch payload j.world = (.ok res, w) ∧ res.ok = true := by
  rcases hf : env.fetch payload j.world with ⟨r, w⟩
  cases r with
  | error m => simp [postOrderEvent, hf]
  | ok res =>
    by_cases hok : res.ok
    · simp [postOrderEvent, hf, hok]
    · cases ht : res.text <;> simp [postOrderEvent, hf, hok, ht]

/-- Counterexample to C7 as stated: the backend answers `200` with a body that has no
success indicator, and `postOrderEvent` returns `true`. -/
theorem postOrderEvent_ignores_body :
    (successMissing.fetch (altFulfilledPayload sampleConfig sampleAltEvent) ()).1.toOption.map
        (fun res => (res.ok, res.success)) = some (true, false) ∧
    (postOrderEvent successMissing (altFulfilledPayload sampleConfig sampleAltEvent)
      (Job.init ())).1 = true := by
  decide

/-! ## Multi-RPC failover: C10 -/

theorem initProviderLoop_first_live {ω : Type} (env : Env ω) (post : List (Option String))
    (rpc : String) (hset : rpc ≠ "")
    (hup : ∀ w, ∃ n, (env.getBlockNumber rpc w).1 = .ok n) :
    ∀ (pre : List (Option String)) (j : Job ω),
      (∀ u ∈ attemptable pre, ∀ w, ∃ m, (env.getBlockNumber u w).1 = .error m) →
      (initProviderLoop env (pre ++ some rpc :: post) j).1 = attemptable pre ++ [rpc] ∧
      (initProviderLoop env (pre ++ some rpc :: post) j).2.provider = some rpc := by
  intro pre
  induction pre with
  | nil =>
    intro j _
    obtain ⟨n, hn⟩ := hup j.world
    rcases hg : env.getBlockNumber rpc j.world with ⟨r, w⟩
    rw [hg] at hn
    simp only at hn
    subst hn
    simp [initProviderLoop, hset, hg, attemptable, Job.log]
  | cons c pre ih =>
    intro j hdown
    cases c with
    | none =>
      simp only [List.cons_append, initProviderLoop, attemptable]
      exact ih j hdown
    | some u =>
      by_cases hu : u = ""
      · subst hu
        simp only [List.cons_append, initProviderLoop, attemptable, if_true]
        exact ih j hdown
      · have hmem : u ∈ attemptable (some u :: pre) := by simp [attemptable, hu]
        obtain ⟨m, hm⟩ := hdown u hmem j.world
        rcases hg : env.getBlockNumber u j.world with ⟨r, w⟩
        rw [hg] at hm
        simp only at hm
        subst hm
        have hrest : ∀ v ∈ attemptable pre, ∀ w, ∃ m, (env.getBlockNumber v w).1 = .error m := by
          intro v hv
          exact hdown v (by simp [attemptable, hu, hv])
        obtain ⟨h1, h2⟩ := ih ({ j with world := w }.log (.rpcFailed u m)) hrest
        simp only [List.cons_append, initProviderLoop, attemptable, hu, if_false, hg]
        exact ⟨congrArg (List.cons u) h1, h2⟩

/-- C10. When the candidates before `rpc` that are set all fail the liveness call and
`rpc`, which is set, answers it, `initProvider` returns with `rpc` selected, having
attempted the set candidates before `rpc` and then `rpc`, in list order: nothing after
`rpc` is attempted and no unset entry is attempted. -/
theorem initProvider_selects_first_live {ω : Type} (env : Env ω)
    (pre post : List (Option String)) (rpc : String) (j : Job ω) (hset : rpc ≠ "")
    (hdown : ∀ u ∈ attemptable pre, ∀ w, ∃ m, (env.getBlockNumber u w).1 = .error m)
    (hup : ∀ w, ∃ n, (env.getBlockNumber rpc w).1 = .ok n) :
    (initProvider env (pre ++ some rpc :: post) j).1 = attemptable pre ++ [rpc] ∧
    (initProvider env (pre ++ some rpc :: post) j).2.1 = .ok rpc ∧
    (initProvider env (pre ++ some rpc :: post) j).2.2.provider = some rpc := by
  obtain ⟨h1, h2⟩ := initProviderLoop_first_live env post rpc hset hup pre
    (j.log .rpcTestStart) hdown
  simp only [initProvider, h2]
  exact ⟨h1, trivial, trivial⟩

/-- Witness of C10: of the candidates `[unset, down, down, up, up]` the third endpoint is
selected and the fourth is never attempted. -/
theorem initProvider_selects_first_live_witness :
    (initProvider fourEndpoints ([none, some "down1", some "down2"] ++ some "up3" :: [some "up4"])
      (Job.init ())).1 = attemptable [none, some "down1", some "down2"] ++ ["up3"] ∧
    (initProvider fourEndpoints ([none, some "down1", some "down2"] ++ some "up3" :: [some "up4"])
      (Job.init ())).2.1 = .ok "up3" ∧
    (initProvider fourEndpoints ([none, some "down1", some "down2"] ++ some "up3" :: [some "up4"])
      (Job.init ())).2.2.provider = some "up3" :=
  initProvider_selects_first_live fourEndpoints [none, some "down1", some "down2"]
    [some "up4"] "up3" (Job.init ()) (by decide)
    (by
      intro u hu w
      have hu2 : u = "down1" ∨ u = "down2" := by simpa [attemptable] using hu
      rcases hu2 with rfl | rfl
      · exact ⟨_, rfl⟩
      · exact ⟨_, rfl⟩)
    (fun _ => ⟨11999, rfl⟩)

/-! ## POST /api/order: C8, C9 -/

/-- What an accepted request wrote: the reply is `200` only when the body passed the check,
the two conversions succeeded and the store reported no error, and then the table is the
`upsert` of the row made from the body. -/
theorem postOrder_accepted (env : ServerEnv) (id createdAt : String)
    (dbError : Option String) (body : Payload) (db : Store)
    (h : (postOrder env id createdAt dbError body db).1.status = 200) :
    ∃ tokenId seller,
      body.tokenId.toStringJs = some tokenId ∧ body.sellerAddress.toLowerCase = some seller ∧
      (postOrder env id createdAt dbError body db).2 = upsert env.resolve
        { id := id
          tokenId := tokenId
          price := body.price
          nftContract := env.NFT_CONTRACT_ADDRESS
          marketplaceContract := env.SEAPORT_CONTRACT_ADDRESS
          seller := seller
          seaportOrder := body.seaportOrder
          orderHash := body.orderHash.or .null
          onChain := false
          status := "active"
          image := body.image.or .null
          createdAt := createdAt
          updatedAt := createdAt
          buyerAddress := .null } db := by
  unfold postOrder at h ⊢
  split at h
  · simp at h
  · rename_i hcheck
    rw [if_neg hcheck]
    cases ht : body.tokenId.toStringJs with
    | none => rw [ht] at h; simp at h
    | some tokenId =>
      cases hs : body.sellerAddress.toLowerCase with
      | none => rw [ht, hs] at h; simp at h
      | some seller =>
        cases dbError with
        | some e => rw [ht, hs] at h; simp at h
        | none => exact ⟨tokenId, seller, rfl, rfl, rfl⟩

/-- A row that holds a `seaportOrder` is still in the table after `upsert`, with its `id`,
its `orderHash` and that `seaportOrder`; when the written row has its `orderHash`, it has
the `status` and `onChain` of the written row. -/
theorem upsert_keeps_seaportOrder (resolve : Row → Row → Row) (row old : Row) (db : Store)
    (hold : old ∈ db) (hp : old.seaportOrder ≠ .null) :
    ∃ r ∈ upsert resolve row db,
      r.id = old.id ∧ r.orderHash = old.orderHash ∧ r.seaportOrder = old.seaportOrder ∧
      (old.orderHash = row.orderHash → r.status = row.status ∧ r.onChain = row.onChain) := by
  unfold upsert
  split
  · by_cases hk : old.orderHash = row.orderHash
    · refine ⟨_, List.mem_map.2 ⟨old, hold, rfl⟩, ?_⟩
      simp [hk, hp]
    · refine ⟨old, List.mem_map.2 ⟨old, hold, ?_⟩, rfl, rfl, rfl, fun he => absurd he hk⟩
      simp [hk]
  · rename_i hany
    refine ⟨old, List.mem_append.2 (Or.inl hold), rfl, rfl, rfl, fun he => ?_⟩
    exact absurd (List.any_eq_true.2 ⟨old, hold, by simp [he]⟩) hany

theorem rowsOf_map_length (f : Row → Row) (hf : ∀ r, (f r).orderHash = r.orderHash)
    (key : JsVal) (db : Store) :
    (rowsOf key (db.map f)).length = (rowsOf key db).length := by
  unfold rowsOf
  induction db with
  | nil => rfl
  | cons r rest ih =>
    by_cases hr : r.orderHash = key
    · simp [List.filter_cons, hf, hr, ih]
    · simp [List.filter_cons, hf, hr, ih]

/-- An `upsert` adds no row under an `orderHash` that the table already has. -/
theorem upsert_rowsOf_length (resolve : Row → Row → Row) (row old : Row) (db : Store)
    (hold : old ∈ db) :
    (rowsOf old.orderHash (upsert resolve row db)).length
      = (rowsOf old.orderHash db).length := by
  unfold upsert
  split
  · apply rowsOf_map_length
    intro r
    by_cases hk : r.orderHash = row.orderHash
    · simp [hk]
    · simp [hk]
  · rename_i hany
    have hne : row.orderHash ≠ old.orderHash := by
      intro he
      apply hany
      exact List.any_eq_true.2 ⟨old, hold, by simp [he]⟩
    unfold rowsOf
    simp [List.filter_append, hne]

/-- C8, on the code. The payload of the sample variant-B event is accepted with status
`fulfilled` and then, with the same `orderHash`, with status `cancelled`, whatever the
store does with the columns the spec leaves open. The table then holds exactly one row of
that `orderHash`, and its status is `active`: the handler does not read `status` from the
body and writes `status: "active"`. -/
theorem postOrder_status_not_stored (resolve : Row → Row → Row) :
    (postOrder { sampleServerEnv with resolve := resolve } "id-1" "t1" none
      (altFulfilledPayload sampleConfig sampleAltEvent) []).1.status = 200 ∧
    (postOrder { sampleServerEnv with resolve := resolve } "id-2" "t2" none cancelledBody
      (postOrder { sampleServerEnv with resolve := resolve } "id-1" "t1" none
        (altFulfilledPayload sampleConfig sampleAltEvent) []).2).1.status = 200 ∧
    (altFulfilledPayload sampleConfig sampleAltEvent).orderHash = cancelledBody.orderHash ∧
    (altFulfilledPayload sampleConfig sampleAltEvent).status = .str "fulfilled" ∧
    cancelledBody.status = .str "cancelled" ∧
    (rowsOf (.str "0xabc")
      (postOrder { sampleServerEnv with resolve := resolve } "id-2" "t2" none cancelledBody
        (postOrder { sampleServerEnv with resolve := resolve } "id-1" "t1" none
          (altFulfilledPayload sampleConfig sampleAltEvent) []).2).2).map
        (fun r => r.status)
      = ["active"] :=
  ⟨rfl, rfl, rfl, rfl, rfl, rfl⟩

/-- C9. For every table that holds a row `old` with `orderHash` `h` and a signed order
payload, and every store that follows the spec, an accepted `POST /api/order` submission
with the same `orderHash` `h`, whatever its `seaportOrder` is, leaves that row in the table
with its `id`, its `orderHash` and its payload, and adds no row under `h`. When `h` is not
the empty string the submission did write that row: it has the `status` and the `onChain`
the handler writes. -/
theorem postOrder_keeps_signed_order (env : ServerEnv) (id createdAt : String)
    (dbError : Option String) (body : Payload) (h : String) (db : Store) (old : Row)
    (hold : old ∈ db) (holdh : old.orderHash = .str h) (hp : old.seaportOrder ≠ .null)
    (hb : body.orderHash = .str h)
    (acc : (postOrder env id createdAt dbError body db).1.status = 200) :
    (∃ row ∈ (postOrder env id createdAt dbError body db).2,
      row.id = old.id ∧ row.orderHash = .str h ∧ row.seaportOrder = old.seaportOrder ∧
      (h ≠ "" → row.status = "active" ∧ row.onChain = false)) ∧
    (rowsOf (.str h) (postOrder env id createdAt dbError body db).2).length
      = (rowsOf (.str h) db).length := by
  obtain ⟨tok, sel, _, _, hdb⟩ := postOrder_accepted env id createdAt dbError body db acc
  rw [hdb]
  refine ⟨?_, ?_⟩
  · obtain ⟨r, hr, h1, h2, h3, h4⟩ := upsert_keeps_seaportOrder env.resolve
      { id := id, tokenId := tok, price := body.price, nftContract := env.NFT_CONTRACT_ADDRESS,
        marketplaceContract := env.SEAPORT_CONTRACT_ADDRESS, seller := sel,
        seaportOrder := body.seaportOrder, orderHash := body.orderHash.or .null,
        onChain := false, status := "active", image := body.image.or .null,
        createdAt := createdAt, updatedAt := createdAt, buyerAddress := .null } old db hold hp
    refine ⟨r, hr, h1, h2.trans holdh, h3, fun hh => ?_⟩
    apply h4
    rw [holdh, hb]
    simp [JsVal.or, JsVal.truthy, hh]
  · rw [← holdh]
    exact upsert_rowsOf_length env.resolve _ old db hold

/-- Witness of C9: the payload the job builds for the sample variant-B event, whose
`seaportOrder` is the stub `{ orderHash }`, posted on the table that holds the listing of
the same `orderHash` with its signed order. -/
theorem postOrder_keeps_signed_order_witness :
    (∃ row ∈ (postOrder sampleServerEnv "id-2" "t2" none
        (altFulfilledPayload sampleConfig sampleAltEvent) listedStore).2,
      row.id = "id-1" ∧ row.orderHash = .str "0xabc" ∧
      row.seaportOrder = .object "signed order of 0xabc" "[object Object]" ∧
      ("0xabc" ≠ "" → row.status = "active" ∧ row.onChain = false)) ∧
    (rowsOf (.str "0xabc") (postOrder sampleServerEnv "id-2" "t2" none
        (altFulfilledPayload sampleConfig sampleAltEvent) listedStore).2).length
      = (rowsOf (.str "0xabc") listedStore).length :=
  postOrder_keeps_signed_order sampleServerEnv "id-2" "t2" none
    (altFulfilledPayload sampleConfig sampleAltEvent) "0xabc" listedStore
    { id := "id-1"
      tokenId := "7"
      price := .num 2
      nftContract := .str "0xnft"
      marketplaceContract := .str "0xseaport"
      seller := "0xseller"
      seaportOrder := .object "signed order of 0xabc" "[object Object]"
      orderHash := .str "0xabc"
      onChain := false
      status := "active"
      image := .null
      createdAt := "2025-01-01T00:00:00.000Z"
      updatedAt := "2025-01-01T00:00:00.000Z"
      buyerAddress := .null }
    (by decide) (by decide) (by decide) (by decide) (by decide)

/-! ## The payloads without token and price: C11 -/

/-- C11. For every variant-A (primary ABI) `OrderFulfilled` event and for every
`OrderCancelled` event, whatever the arguments of the event (also when it has none), the
payload built for submission has `tokenId = null` and `price = null`. -/
theorem primary_and_cancelled_payload_null (cfg : Config) (ev : Event) :
    (primaryFulfilledPayload cfg ev).tokenId = .null ∧
    (primaryFulfilledPayload cfg ev).price = .null ∧
    (cancelledPayload cfg ev).tokenId = .null ∧
    (cancelledPayload cfg ev).price = .null :=
  ⟨rfl, rfl, rfl, rfl⟩

/-! ## The validation of POST /api/order and the cancelled counter: C12 -/

theorem falsy_iff (v : JsVal) :
    v.truthy = false ↔
      v = .undefined ∨ v = .null ∨ v = .bool false ∨ v = .num 0 ∨ v = .str "" := by
  cases v with
  | undefined => simp [JsVal.truthy]
  | null => simp [JsVal.truthy]
  | bool b => cases b <;> simp [JsVal.truthy]
  | num n => simp [JsVal.truthy]
  | str s => simp [JsVal.truthy]
  | record k x => simp [JsVal.truthy]
  | object a b => simp [JsVal.truthy]

theorem postOrder_400_iff (env : ServerEnv) (id createdAt : String)
    (dbError : Option String) (body : Payload) (db : Store) :
    (postOrder env id createdAt dbError body db).1.status = 400 ↔
      (body.tokenId.truthy = false ∨ (body.price.truthy = false ∧ body.price ≠ .num 0) ∨
        body.sellerAddress.truthy = false ∨ body.seaportOrder.truthy = false) := by
  unfold postOrder
  split
  · rename_i hcheck
    simp only [true_iff]
    simpa [bne_iff_ne, or_assoc] using hcheck
  · rename_i hcheck
    have hno : ¬ (body.tokenId.truthy = false ∨
        (body.price.truthy = false ∧ body.price ≠ .num 0) ∨
        body.sellerAddress.truthy = false ∨ body.seaportOrder.truthy = false) := by
      intro h
      apply hcheck
      simpa [bne_iff_ne, or_assoc] using h
    simp only [hno, iff_false]
    cases body.tokenId.toStringJs with
    | none => simp
    | some tokenId =>
      cases body.sellerAddress.toLowerCase with
      | none => simp
      | some seller => cases dbError <;> simp

theorem postOrder_of_400 (env : ServerEnv) (id createdAt : String)
    (dbError : Option String) (body : Payload) (db : Store)
    (h : (postOrder env id createdAt dbError body db).1.status = 400) :
    postOrder env id createdAt dbError body db
      = ({ status := 400, success := false, error := some "Missing parameters" }, db) := by
  unfold postOrder at h ⊢
  split
  · rfl
  · rename_i hcheck
    rw [if_neg hcheck] at h
    revert h
    cases body.tokenId.toStringJs with
    | none => simp
    | some tokenId =>
      cases body.sellerAddress.toLowerCase with
      | none => simp
      | some seller => cases dbError <;> simp

theorem postOrder_null_tokenId (env : ServerEnv) (id createdAt : String)
    (dbError : Option String) (body : Payload) (db : Store) (h : body.tokenId = .null) :
    postOrder env id createdAt dbError body db
      = ({ status := 400, success := false, error := some "Missing parameters" }, db) :=
  postOrder_of_400 env id createdAt dbError body db
    ((postOrder_400_iff env id createdAt dbError body db).2 (Or.inl (by rw [h]; rfl)))

theorem postOrderEvent_backend_null_tokenId {χ : Type} (chain : Env χ) (server : Server)
    (payload : Payload) (j : Job (Backend χ)) (h : payload.tokenId = .null) :
    (postOrderEvent (backendEnv chain server) payload j).1 = false := by
  cases hn : server.netError j.world.requests with
  | some m => simp [postOrderEvent, backendEnv, hn]
  | none =>
    simp [postOrderEvent, backendEnv, hn, postOrder_null_tokenId _ _ _ _ _ _ h,
      Reply.toResponse, Response.ok]

@[simp]
theorem Job.log_totalCancelled {ω : Type} (j : Job ω) (line : LogLine) :
    (j.log line).totalCancelled = j.totalCancelled := rfl

theorem postOrderEvent_totalCancelled {ω : Type} (env : Env ω) (payload : Payload)
    (j : Job ω) : (postOrderEvent env payload j).2.totalCancelled = j.totalCancelled := by
  rcases hf : env.fetch payload j.world with ⟨r, w⟩
  cases r with
  | error m => simp [postOrderEvent, hf]
  | ok res =>
    by_cases hok : res.ok
    · simp [postOrderEvent, hf, hok]
    · cases ht : res.text <;> simp [postOrderEvent, hf, hok, ht]

theorem submitEvents_totalCancelled {χ : Type} (chain : Env χ) (server : Server)
    (cfg : Config) (kind : EventKind) :
    ∀ (events : List Event) (j : Job (Backend χ)),
      (submitEvents (backendEnv chain server) cfg kind events j).totalCancelled
        = j.totalCancelled := by
  intro events
  induction events with
  | nil => intro j; rfl
  | cons ev rest ih =>
    intro j
    have hc := postOrderEvent_totalCancelled (backendEnv chain server) (payloadOf cfg kind ev) j
    rcases hp : postOrderEvent (backendEnv chain server) (payloadOf cfg kind ev) j with ⟨b, j1⟩
    rw [hp] at hc
    cases b
    · simp only [submitEvents, hp]
      rw [ih]; exact hc
    · simp only [submitEvents, hp]
      rw [ih]
      cases kind with
      | primaryFulfilled => exact hc
      | altFulfilled => exact hc
      | cancelled =>
        have hfalse := postOrderEvent_backend_null_tokenId chain server
          (payloadOf cfg .cancelled ev) j rfl
        rw [hp] at hfalse
        simp at hfalse

theorem scanCallback_totalCancelled {χ : Type} (chain : Env χ) (server : Server)
    (cfg : Config) (url : String) (kind : EventKind) (start end_ : Int)
    (j : Job (Backend χ)) :
    (scanCallback (backendEnv chain server) cfg url kind start end_ j).2.totalCancelled
      = j.totalCancelled := by
  rcases hf : (backendEnv chain server).queryFilter url kind start end_ j.world with ⟨r, w⟩
  cases r with
  | error m => simp [scanCallback, hf]
  | ok events => simp [scanCallback, hf, submitEvents_totalCancelled]

theorem queryInChunksW_totalCancelled {ω : Type} (W to_ : Int) (callback : Callback ω)
    (hcb : ∀ start end_ j, (callback start end_ j).2.totalCancelled = j.totalCancelled) :
    ∀ (fuel : Nat) (start : Int) (j : Job ω) (calls : List (Int × Int)) (j2 : Job ω),
      queryInChunksW W callback to_ fuel start j = some (calls, j2) →
      j2.totalCancelled = j.totalCancelled := by
  intro fuel
  induction fuel with
  | zero =>
    intro start j calls j2 h
    by_cases hle : start ≤ to_
    · simp [queryInChunksW, hle] at h
    · simp only [queryInChunksW, hle, if_false, Option.some.injEq, Prod.mk.injEq] at h
      rw [← h.2]
  | succ fuel ih =>
    intro start j calls j2 h
    by_cases hle : start ≤ to_
    · simp only [queryInChunksW, hle, if_true] at h
      have hc := hcb start (min (start + W) to_) (j.log (.chunkScan start (min (start + W) to_)))
      rcases hcall : callback start (min (start + W) to_)
        (j.log (.chunkScan start (min (start + W) to_))) with ⟨r, jc⟩
      rw [hcall] at h hc
      simp only [Job.log_totalCancelled] at hc
      cases r with
      | ok u =>
        simp only at h
        cases hrec : queryInChunksW W callback to_ fuel (min (start + W) to_ + 1) jc with
        | none => rw [hrec] at h; simp at h
        | some p =>
          rw [hrec] at h
          simp only [Option.some.injEq, Prod.mk.injEq] at h
          have := ih _ _ p.1 p.2 hrec
          rw [← h.2, this, hc]
      | error m =>
        simp only at h
        cases hrec : queryInChunksW W callback to_ fuel (min (start + W) to_ + 1)
          (jc.log (.chunkError m)) with
        | none => rw [hrec] at h; simp at h
        | some p =>
          rw [hrec] at h
          simp only [Option.some.injEq, Prod.mk.injEq] at h
          have := ih _ _ p.1 p.2 hrec
          rw [← h.2, this, Job.log_totalCancelled, hc]
    · simp only [queryInChunksW, hle, if_false, Option.some.injEq, Prod.mk.injEq] at h
      rw [← h.2]

theorem initProviderLoop_totalCancelled {ω : Type} (env : Env ω) :
    ∀ (rpcs : List (Option String)) (j : Job ω),
      (initProviderLoop env rpcs j).2.totalCancelled = j.totalCancelled := by
  intro rpcs
  induction rpcs with
  | nil => intro j; rfl
  | cons rpc rest ih =>
    intro j
    cases rpc with
    | none => simp only [initProviderLoop]; exact ih j
    | some url =>
      simp only [initProviderLoop]
      by_cases hu : url = ""
      · simp only [hu, if_true]; exact ih j
      · simp only [hu, if_false]
        rcases env.getBlockNumber url j.world with ⟨r, w⟩
        cases r with
        | ok n => rfl
        | error m => simp only; rw [ih]; rfl

theorem initProvider_totalCancelled {ω : Type} (env : Env ω) (rpcs : List (Option String))
    (j : Job ω) : (initProvider env rpcs j).2.2.totalCancelled = j.totalCancelled := by
  unfold initProvider
  have h := initProviderLoop_totalCancelled env rpcs (j.log .rpcTestStart)
  cases hp : (initProviderLoop env rpcs (j.log .rpcTestStart)).2.provider <;>
    simp [hp, h]

/-- Run against the server, `main` returns once the fuel covers the block range, and the
job it ends with has `totalCancelled = 0`. -/
theorem main_backend_totalCancelled {χ : Type} (chain : Env χ) (server : Server)
    (cfg : Config) (w : Backend χ) :
    ∃ fuel0, ∀ extra, ∃ code j,
      main (backendEnv chain server) cfg (fuel0 + extra) w = some (code, j) ∧
      j.totalCancelled = 0 := by
  have hW : (0 : Int) ≤ CHUNK := by decide
  rcases hip : initProvider (backendEnv chain server) cfg.RPC_LIST
    ((Job.init w).log .syncStart) with ⟨att, res, j1⟩
  have hc1 : j1.totalCancelled = 0 := by
    have := initProvider_totalCancelled (backendEnv chain server) cfg.RPC_LIST
      ((Job.init w).log .syncStart)
    rw [hip] at this
    exact this
  cases res with
  | error code =>
    exact ⟨0, fun extra => ⟨code, j1, by simp only [main, hip], hc1⟩⟩
  | ok url =>
    rcases hg : (backendEnv chain server).getBlockNumber url (j1.log (.usedRpc url)).world
      with ⟨r, w3⟩
    cases r with
    | error m =>
      exact ⟨0, fun extra => ⟨1, { (j1.log (.usedRpc url)) with world := w3 }.log (.fatal m),
        by simp only [main, hip, hg], hc1⟩⟩
    | ok latestBlock =>
      refine ⟨scanFuel cfg.FROM_BLOCK latestBlock, fun extra => ?_⟩
      have hfu : (latestBlock + 1 - cfg.FROM_BLOCK).toNat
          ≤ scanFuel cfg.FROM_BLOCK latestBlock + extra := by
        unfold scanFuel; omega
      obtain ⟨j4, hj4⟩ := queryInChunksW_trace CHUNK latestBlock hW
        (scanCallback (backendEnv chain server) cfg url .primaryFulfilled) _ cfg.FROM_BLOCK
        ({ (j1.log (.usedRpc url)) with world := w3 }.log
          (.blockRange cfg.FROM_BLOCK latestBlock)) hfu
      obtain ⟨j5, hj5⟩ := queryInChunksW_trace CHUNK latestBlock hW
        (scanCallback (backendEnv chain server) cfg url .altFulfilled) _ cfg.FROM_BLOCK j4 hfu
      obtain ⟨j6, hj6⟩ := queryInChunksW_trace CHUNK latestBlock hW
        (scanCallback (backendEnv chain server) cfg url .cancelled) _ cfg.FROM_BLOCK j5 hfu
      have h4 := queryInChunksW_totalCancelled CHUNK latestBlock _
        (scanCallback_totalCancelled chain server cfg url .primaryFulfilled) _ _ _ _ _ hj4
      have h5 := queryInChunksW_totalCancelled CHUNK latestBlock _
        (scanCallback_totalCancelled chain server cfg url .altFulfilled) _ _ _ _ _ hj5
      have h6 := queryInChunksW_totalCancelled CHUNK latestBlock _
        (scanCallback_totalCancelled chain server cfg url .cancelled) _ _ _ _ _ hj6
      refine ⟨0, ((j6.log .syncDone).log (.fulfilledTotal j6.totalFulfilled)).log
        (.cancelledTotal j6.totalCancelled), ?_, ?_⟩
      · simp only [main, hip, hg, queryInChunks, hj4, hj5, hj6]
      · simp only [Job.log_totalCancelled, h6, h5, h4]
        exact hc1

/-- C12. The handler of `POST /api/order` answers `400` exactly when `tokenId` is falsy, or
`price` is falsy and not the number `0`, or `sellerAddress` is falsy, or `seaportOrder` is
falsy (falsy: `undefined`, `null`, `false`, `0` or the empty string), and a `400` answer is
the `Missing parameters` reply with the table left as it was. So the payload the job builds
for a variant-A fulfilment and the one it builds for a cancellation are answered `400`
without a write, `postOrderEvent` returns `false` for them when the job posts to this
server, and `main` run against this server returns with `totalCancelled = 0`. -/
theorem postOrder_rejects_and_cancelled_never_counted {χ : Type} (chain : Env χ)
    (server : Server) (cfg : Config) (env : ServerEnv) (id createdAt : String)
    (dbError : Option String) (body : Payload) (db : Store) (v : JsVal) (ev : Event)
    (j : Job (Backend χ)) (w : Backend χ) :
    (v.truthy = false ↔
      v = .undefined ∨ v = .null ∨ v = .bool false ∨ v = .num 0 ∨ v = .str "") ∧
    ((postOrder env id createdAt dbError body db).1.status = 400 ↔
      (body.tokenId.truthy = false ∨ (body.price.truthy = false ∧ body.price ≠ .num 0) ∨
        body.sellerAddress.truthy = false ∨ body.seaportOrder.truthy = false)) ∧
    ((postOrder env id createdAt dbError body db).1.status = 400 ↔
      postOrder env id createdAt dbError body db
        = ({ status := 400, success := false, error := some "Missing parameters" }, db)) ∧
    postOrder env id createdAt dbError (primaryFulfilledPayload cfg ev) db
      = ({ status := 400, success := false, error := some "Missing parameters" }, db) ∧
    postOrder env id createdAt dbError (cancelledPayload cfg ev) db
      = ({ status := 400, success := false, error := some "Missing parameters" }, db) ∧
    (postOrderEvent (backendEnv chain server) (primaryFulfilledPayload cfg ev) j).1 = false ∧
    (postOrderEvent (backendEnv chain server) (cancelledPayload cfg ev) j).1 = false ∧
    (∃ fuel0, ∀ extra, ∃ code j2,
      main (backendEnv chain server) cfg (fuel0 + extra) w = some (code, j2) ∧
      j2.totalCancelled = 0) := by
  refine ⟨falsy_iff v, postOrder_400_iff env id createdAt dbError body db,
    ⟨postOrder_of_400 env id createdAt dbError body db, fun h => by rw [h]⟩,
    postOrder_null_tokenId env id createdAt dbError _ db rfl,
    postOrder_null_tokenId env id createdAt dbError _ db rfl,
    postOrderEvent_backend_null_tokenId chain server _ j rfl,
    postOrderEvent_backend_null_tokenId chain server _ j rfl,
    main_backend_totalCancelled chain server cfg w⟩

/-- The sample job run against the sample server: of the three events on the chain, one per
category, only the variant-B fulfilment is accepted and counted. The two others are posted
and answered `400`; the cancelled counter stays at `0` and the table gets one row. -/
theorem main_sample_run :
    (main (backendEnv sampleChain sampleServer) sampleConfig 12000
        { chain := (), db := [], requests := 0 }).map
      (fun r => (r.1, r.2.totalFulfilled, r.2.totalCancelled, r.2.posts.length,
        r.2.world.requests, r.2.world.db.length)) = some (0, 1, 0, 3, 3, 1) := by
  decide

end Kamokamo
